import Mathlib

/-!
Verification of the NV memory engine and buffer pool of the uc-hal layer
(hal_nv.c, hal_bp.c, hal_nv.h, hal_bp.h / hal.h of this repository).

The embedding models the worker-task configuration (HAL_NV_USE_WORKER_TASK),
the one the specification describes: the engine owns a request queue, a
semaphore pool and a buffer-pool reference.  All C integers involved are
uint32; the embedding uses Nat and inserts an explicit `% 2^32` exactly where
the source expression can wrap.  Where a theorem's hypotheses rule the wrap
out, the Nat operation agrees with the uint32 one and no mod is written; each
such place is noted in the doc comment of the definition.
-/

namespace UcHalNV

/-- The uint32 modulus: every address, size and counter in the source is a
32-bit unsigned integer. -/
def U32 : Nat := 2 ^ 32

/-- NV_OpResult (hal_nv.h): the flat result enumeration of the NV API. -/
inductive NV_OpResult where
  | NVOP_OK
  | NVOP_IN_PROGRESS
  | NVOP_BAD_REQUEST
  | NVOP_NO_SEM_AVAIL
  | NVOP_NO_BUF_AVAIL
  | NVOP_TOO_MANY_REQ
  | NVOP_DEVOP_RD_ERR
  | NVOP_DEVOP_WR_ERR
  | NVOP_DEVOP_ER_ERR
  | NVOP_LOCKED
deriving DecidableEq, Repr

/-- NV_AddressMap_T (hal_nv.h): start address, end address and physical write
unit (page) length of one logical device.  All three fields are uint32. -/
structure NV_AddressMap where
  start_addr : Nat
  end_addr : Nat
  write_len_unit : Nat
deriving DecidableEq, Repr

/-- nv_is_block_avail (hal_nv.c):
`map && (!size || ((addr >= map->start_addr) && ((addr + (size - 1)) <= map->end_addr)))`.
The addition `addr + (size - 1)` is evaluated in uint32 and can wrap, hence
the explicit mod; `size - 1` cannot wrap in the branch where it is evaluated
because the `!size` disjunct short-circuits first.  The map handle is non-null
in every call modeled here. -/
def nv_is_block_avail (map : NV_AddressMap) (addr size : Nat) : Bool :=
  decide (size = 0 ∨
    (map.start_addr ≤ addr ∧ (addr + (size - 1)) % U32 ≤ map.end_addr))

/-- nv_get_block_at (hal_nv.c): for an address inside the map, returns the
write unit length together with the base address of the write unit containing
`addr` (`map->write_len_unit * (addr / map->write_len_unit)`); outside the map
it returns length 0 and in C leaves the out-parameter unassigned (the model
returns `addr` there; the engine only reaches that case through requests that
already passed `nv_is_block_avail`).  The multiplication cannot wrap for an
in-map address because `addr < 2^32`. -/
def nv_get_block_at (map : NV_AddressMap) (addr : Nat) : Nat × Nat :=
  if map.start_addr ≤ addr ∧ addr ≤ map.end_addr then
    (map.write_len_unit, map.write_len_unit * (addr / map.write_len_unit))
  else
    (0, addr)

/-- One physical page cycle performed by the write loop of
nv_process_write_request: the write-unit base address that was written, and,
when the unit was not fully covered by the request, the length of the
full-page device read issued before the write (always the write unit length;
`none` when no read was needed). -/
structure PageOp where
  addr : Nat
  readLen : Option Nat
deriving DecidableEq, Repr

/-- Events a caller can observe after the write loop of
nv_process_write_request finishes (the tail of the C function): the result
slot assignment, the notification semaphore give (synchronous requests) and
the staging-buffer release (asynchronous requests). -/
inductive NV_Event where
  | bufReleased
  | resultSet (r : NV_OpResult)
  | semGiven
deriving DecidableEq, Repr

/-- The do/while loop of nv_process_write_request (hal_nv.c), for a device
whose read/write callbacks model a byte-array medium: a read copies the
addressed bytes of `mem` and a write stores a full write unit, and both always
return NVOP_OK.  `src` gives the request's source bytes by offset (the C code
reads them out of the request's partial buffer with BP_CopyToMem), `mem` the
device contents by address, `buf` the engine's shared scratch page_buffer by
offset.  `fuel` is a structural recursion bound; the theorems below use
`len + 1`, which is enough because every iteration consumes at least one byte
whenever the write unit is positive.  In the single iteration all C arithmetic
is uint32 but none of it can wrap under an in-map request, because
`wr_addr ≤ nv_addr`, `nv_addr - wr_addr < write_len_unit` and
`wr_size ≤ len`; the Nat operations used here therefore agree with the
source. -/
def nv_write_loop (map : NV_AddressMap) (src : Nat → Nat) :
    Nat → (Nat → Nat) → (Nat → Nat) → Nat → Nat → Nat →
    ((Nat → Nat) × (Nat → Nat) × List PageOp)
  | 0, mem, buf, _, _, _ => (mem, buf, [])
  | fuel + 1, mem, buf, src_offset, nv_addr, len =>
    let blk := nv_get_block_at map nv_addr
    if blk.1 = 0 then
      -- C would continue with an unassigned wr_addr here; the engine never
      -- reaches this case because the request range passed validation.
      (mem, buf, [])
    else
      let wr_addr := blk.2
      let buf1 : Nat → Nat := fun i =>
        if nv_addr ≠ wr_addr ∨ len < blk.1 then
          if i < blk.1 then mem (wr_addr + i) else buf i
        else buf i
      let off := nv_addr - wr_addr
      let wr_size := min len (blk.1 - off)
      let buf2 : Nat → Nat := fun i =>
        if off ≤ i ∧ i < off + wr_size then src (src_offset + (i - off)) else buf1 i
      let mem1 : Nat → Nat := fun a =>
        if wr_addr ≤ a ∧ a < wr_addr + blk.1 then buf2 (a - wr_addr) else mem a
      let op : PageOp :=
        ⟨wr_addr, if nv_addr ≠ wr_addr ∨ len < blk.1 then some blk.1 else none⟩
      if len - wr_size = 0 then
        (mem1, buf2, [op])
      else
        let r := nv_write_loop map src fuel mem1 buf2
          (src_offset + wr_size) (nv_addr + wr_size) (len - wr_size)
        (r.1, r.2.1, op :: r.2.2)

/-- nv_process_write_request (hal_nv.c) on a byte-array medium: runs the page
read-modify-write loop for `len` source bytes at device address `addr` and
then performs the function's tail.  Returns the new device contents, the final
scratch buffer, the ordered list of page cycles, and the tail events: for a
synchronous request (`sync = true`, a notification semaphore is present) the
result slot is set and then the semaphore given; for an asynchronous request
the staging buffer is released back to the pool first and the result slot set
only afterwards.  On this medium every device operation returns NVOP_OK, so
the loop always runs to completion and the reported result is NVOP_OK. -/
def nv_process_write_request (map : NV_AddressMap) (src mem buf : Nat → Nat)
    (addr len : Nat) (sync : Bool) :
    ((Nat → Nat) × (Nat → Nat) × List PageOp) × List NV_Event :=
  (nv_write_loop map src (len + 1) mem buf 0 addr len,
   if sync then [NV_Event.resultSet NV_OpResult.NVOP_OK, NV_Event.semGiven]
   else [NV_Event.bufReleased, NV_Event.resultSet NV_OpResult.NVOP_OK])

/-- The byte-array medium read callback: NV_ReadSync hands the caller's `dst`
to ops->read, which on this medium copies `size` bytes starting at `addr`
into it; byte `i` of the destination is `mem (addr + i)`. -/
def nv_read_bytes (mem : Nat → Nat) (addr : Nat) : Nat → Nat :=
  fun i => mem (addr + i)

/-! ## Buffer pool (hal_bp.c) -/

/-- One chunk descriptor of a buffer pool (a BP_PartialBuf_T owned by the
pool, hal_bp.h / hal_bp.c).  `owned` models a non-null `pool` back-pointer,
`next` the chain link as an index into the pool's chunk array (`none` models a
NULL next pointer).  The chunk's data bytes are not tracked: BP_ReleaseBuffer
zeroes them and no verified claim depends on their values. -/
structure BPChunk where
  owned : Bool
  size : Nat
  next : Option Nat
deriving DecidableEq, Repr

instance : Inhabited BPChunk := ⟨⟨false, 0, none⟩⟩

/-- BP_BufferPool_T (hal_bp.c): the chunk descriptor array, the count of
available chunks and the uniform (alignment-rounded) chunk data length.
The C field no_buffers always equals the length of the descriptor array
(established by BP_Create), so it is represented by `chunks.length`. -/
structure BPool where
  chunks : List BPChunk
  avail_buffers : Nat
  buf_len : Nat
deriving DecidableEq, Repr

/-- The number of free chunks (null pool back-pointer) of a chunk array. -/
def countFree (chunks : List BPChunk) : Nat :=
  chunks.countP (fun c => !c.owned)

/-- BP_Create (hal_bp.c) on the path where all three heap allocations
succeed: rejects a zero chunk count or size, rounds the chunk size up to
HAL_BP_MEM_ALIGN (4) — the rounding sum is uint32, hence the mod — and builds
`no_buffers` free chunks of the rounded size with null next and pool
pointers.  A failed allocation also returns NULL in C after rolling back; the
allocator itself is not modeled. -/
def BP_Create (no_buffers buffer_size : Nat) : Option BPool :=
  if no_buffers = 0 ∨ buffer_size = 0 then none
  else
    let bs := 4 * (((buffer_size + 3) % U32) / 4)
    some ⟨List.replicate no_buffers ⟨false, bs, none⟩, no_buffers, bs⟩

/-- The chunk scan inside BP_GetBuffer's critical section: the absolute
indices (the scan starts at `base`, 0 at the top call) of the first `needed`
chunks whose pool back-pointer is null, in scan order.  The C for loop does
not bound buf_idx by the array length; running past the end (possible only
when avail_buffers over-reports the free chunks) indexes out of bounds in C
and yields `none` here. -/
def bp_scan : Nat → Nat → List BPChunk → Option (List Nat)
  | _, 0, _ => some []
  | _, _ + 1, [] => none
  | base, n + 1, c :: rest =>
    if c.owned then bp_scan (base + 1) (n + 1) rest
    else (bp_scan (base + 1) n rest).map (fun l => base :: l)

/-- The pointer writes BP_GetBuffer performs while taking the scanned chunks:
each selected chunk's pool back-pointer is set (owned := true) and its next
field made to point at the chunk selected after it; the final `prev->next =
NULL` gives the last selected chunk a null next. -/
def bp_link : List Nat → List BPChunk → List BPChunk
  | [], cs => cs
  | [i], cs => cs.set i { cs.getD i default with owned := true, next := none }
  | i :: j :: rest, cs =>
    bp_link (j :: rest)
      (cs.set i { cs.getD i default with owned := true, next := some j })

/-- BP_GetBuffer (hal_bp.c).  Result: `none` when the C function's behavior
is undefined (see below); `some (none, pool)` when it returns NULL with the
pool untouched; `some (some head, pool)` when it returns the chain starting
at chunk index `head`.  bufs_needed is the uint32 expression
`(buf_len + (bp->buf_len - 1)) / bp->buf_len`, whose addition wraps for
buf_len close to 2^32: when it wraps to a quotient of 0, the C for loop body
never runs, after it `prev->next = NULL` writes through the uninitialized
prev and `ob->size = buf_len` dereferences the NULL ob — that is the first
`none`.  The second `none` is the unbounded scan running past the chunk
array.  A null bp handle (also NULL in C) is not modeled; a zero buf_len
returns NULL.  On success avail_buffers is decremented by bufs_needed and the
head chunk's size field is set to the exact requested length. -/
def BP_GetBuffer (bp : BPool) (buf_len : Nat) : Option (Option Nat × BPool) :=
  if buf_len = 0 then some (none, bp)
  else
    let needed := ((buf_len + (bp.buf_len - 1)) % U32) / bp.buf_len
    if needed = 0 then none
    else if bp.chunks.length < needed then some (none, bp)
    else if bp.avail_buffers < needed then some (none, bp)
    else
      match bp_scan 0 needed bp.chunks with
      | none => none
      | some sel =>
        let cs := bp_link sel bp.chunks
        let head := sel.headD 0
        let cs2 := cs.set head { cs.getD head default with size := buf_len }
        some (some head, ⟨cs2, bp.avail_buffers - needed, bp.buf_len⟩)

/-- The do/while walk of BP_ReleaseBuffer (hal_bp.c) starting at chunk index
`i`: per visited chunk the pool's avail_buffers is incremented through the
chunk's pool back-pointer (a null back-pointer there is a null dereference in
C, hence `none`), the data is zeroed (not tracked), the back-pointer cleared
and the walk follows next.  When next is null the loop ends; the final
HAL_BP_MUTEX_UNLOCK macro expands to CORE_ExitCritical() and ignores its
argument, so the `buf->pool` written there in the source is never evaluated
and the walk ends without any further pointer access.  `fuel` bounds the
walk; a chain with a pointer cycle would keep the C loop spinning forever
(`none` when the bound is hit), but chains built by BP_GetBuffer are strictly
index-increasing, so the bound used by BP_ReleaseBuffer is never reached. -/
def bp_release_walk : Nat → BPool → Nat → Option BPool
  | 0, _, _ => none
  | fuel + 1, bp, i =>
    let c := bp.chunks.getD i default
    if ¬c.owned then none
    else
      let bp1 : BPool :=
        ⟨bp.chunks.set i { c with owned := false }, bp.avail_buffers + 1, bp.buf_len⟩
      match c.next with
      | none => some bp1
      | some j => bp_release_walk fuel bp1 j

/-- BP_ReleaseBuffer (hal_bp.c): a null buffer or a buffer with a null pool
back-pointer (a standalone buffer) is a no-op by the entry guard; otherwise
the chain is walked and every chunk returned to the pool. -/
def BP_ReleaseBuffer (bp : BPool) (buf : Option Nat) : Option BPool :=
  match buf with
  | none => some bp
  | some i =>
    if (bp.chunks.getD i default).owned then
      bp_release_walk (bp.chunks.length + 1) bp i
    else some bp

/-- A pool-backed chain as BP_GetBuffer builds it: a nonempty, strictly
index-increasing list of in-range chunk indices, all owned, each linked by
next to the one after it, the last one's next null. -/
def IsPoolChain (bp : BPool) (sel : List Nat) : Prop :=
  sel ≠ [] ∧ List.Chain' (· < ·) sel ∧
  (∀ i ∈ sel, i < bp.chunks.length ∧ (bp.chunks.getD i default).owned = true) ∧
  List.Chain' (fun i j => (bp.chunks.getD i default).next = some j) sel ∧
  (bp.chunks.getD (sel.getLastD 0) default).next = none

/-- The node-hopping for loop of BP_CopyToMem (hal_bp.c):
`for (buf_offset = single; src_offset >= buf_offset; buf_offset += single)
src = src->next;`.  The chain is abstracted by the number of nodes from the
current one (inclusive): `cnt = 0` is a null node pointer, and hopping from a
null node dereferences it (`none`).  buf_offset is uint32 and its increment
can wrap, which is why the loop is modeled literally instead of as a
division.  The fuel used by BP_CopyToMem below always suffices: every
iteration either exits the loop, consumes a node, or faults. -/
def bp_hop_loop (single src_offset : Nat) : Nat → Nat → Nat → Option (Nat × Nat)
  | 0, _, _ => none
  | fuel + 1, buf_offset, cnt =>
    if src_offset < buf_offset then some (buf_offset, cnt)
    else if cnt = 0 then none
    else bp_hop_loop single src_offset fuel ((buf_offset + single) % U32) (cnt - 1)

/-- The trailing while loop of BP_CopyToMem (hal_bp.c): while bytes remain it
advances to the next node and copies `min single data_len` bytes out of it.
`cnt` counts the nodes from the current one inclusive; advancing consumes
one, and the memcpy from a null node (cnt would drop to 0) is a null
dereference (`false`).  A zero `single` never decreases data_len and the C
loop then runs off the chain end, which the same `cnt` bound captures. -/
def bp_copy_loop (single : Nat) : Nat → Nat → Nat → Bool
  | 0, _, _ => false
  | fuel + 1, cnt, data_len =>
    if data_len = 0 then true
    else if cnt ≤ 1 then false
    else bp_copy_loop single fuel (cnt - 1) (data_len - min single data_len)

/-- BP_CopyToMem (hal_bp.c), instrumented for pointer faults; the moved bytes
are not tracked (no verified claim depends on them — the write path's use of
the copied bytes is embedded directly in nv_write_loop).  The source chain is
abstracted by the head's size field `S`, the number of nodes `ℓ` reachable
through next (the last one having a null next) and the per-node data length
`single` (the owner pool's buf_len for a pool-backed chain, `S` itself for a
standalone buffer).  Returns the C function's return value, or `none` when
the C code dereferences a null pointer by walking off the end of the chain.
A null src or dst and the offset/length guards return 0 without any
dereference, as in the source (`ℓ = 0` models a null src).  The truncation
test `(src_offset + data_len) > src->size` is uint32 and wraps — exactly what
lets an overflowing data_len through to the unchecked walk.  The offset
arithmetic after the hop loop is uint32 subtraction, written as addition of
U32 minus the subtrahend modulo U32.  BP_CopyToBuf has the same guards, hop
loop and copy loop with src and dst swapped, so its traversal and fault
behavior are this same function. -/
def BP_CopyToMem (S ℓ single src_offset data_len : Nat) : Option Nat :=
  if ℓ = 0 ∨ data_len = 0 ∨ ¬(src_offset < S) then some 0
  else
    let dl := if S < (src_offset + data_len) % U32 then S - src_offset else data_len
    match bp_hop_loop single src_offset (ℓ + 2) single ℓ with
    | none => none
    | some (bo, cnt) =>
      if cnt = 0 then none
      else
        let bo1 := (bo + (U32 - single)) % U32
        let boff := (src_offset + (U32 - bo1)) % U32
        let csz := min ((single + (U32 - boff)) % U32) dl
        if bp_copy_loop single (cnt + 1) cnt (dl - csz) then some dl else none

/-! ## Request queue and semaphore pool (hal_nv.c, worker-task config) -/

/-- NV_RequestQueue_T (hal_nv_internal.h / hal_nv.c): a bounded circular
queue.  The request slot contents are populated by the producer inside the
same critical section and are not part of the queue discipline, so only the
counters are modeled; allocate/dequeue hand out the slot index. -/
structure NV_RequestQueue where
  max_no_requests : Nat
  pending_requests : Nat
  head : Nat
  tail : Nat
deriving DecidableEq, Repr

/-- nv_allocate_request (hal_nv.c): under the caller's critical section, if
pending < capacity, hands out the slot at tail, advances tail wrapping at
capacity and increments pending; otherwise returns NULL and changes
nothing. -/
def nv_allocate_request (q : NV_RequestQueue) : Option Nat × NV_RequestQueue :=
  if q.pending_requests < q.max_no_requests then
    (some q.tail,
      { q with
        pending_requests := q.pending_requests + 1,
        tail := if q.tail + 1 = q.max_no_requests then 0 else q.tail + 1 })
  else (none, q)

/-- nv_get_request (hal_nv.c): under the caller's critical section, if
pending > 0, hands out the slot at head, advances head wrapping at capacity
and decrements pending; otherwise returns NULL and changes nothing. -/
def nv_get_request (q : NV_RequestQueue) : Option Nat × NV_RequestQueue :=
  if q.pending_requests ≠ 0 then
    (some q.head,
      { q with
        pending_requests := q.pending_requests - 1,
        head := if q.head + 1 = q.max_no_requests then 0 else q.head + 1 })
  else (none, q)

/-- `k` successive nv_allocate_request calls (state part). -/
def nv_alloc_iter (q : NV_RequestQueue) : Nat → NV_RequestQueue
  | 0 => q
  | k + 1 => (nv_allocate_request (nv_alloc_iter q k)).2

/-- `k` successive nv_get_request calls (state part). -/
def nv_deq_iter (q : NV_RequestQueue) : Nat → NV_RequestQueue
  | 0 => q
  | k + 1 => (nv_get_request (nv_deq_iter q k)).2

/-- The drain loop of NV_MemDeviceLock(flush=true) (hal_nv.c): pops requests
until nv_get_request returns NULL, processing each popped request with
nv_process_request.  At this queue-counter level processing a request has no
further effect; its device-side effect is the write loop modeled separately.
The fuel pending+1 covers the do/while exactly: one iteration per pending
request plus the final empty poll. -/
def nv_drain : Nat → NV_RequestQueue → NV_RequestQueue
  | 0, q => q
  | fuel + 1, q =>
    match nv_get_request q with
    | (none, q1) => q1
    | (some _, q1) => nv_drain fuel q1

/-- nv_sem_pool_get_sem (hal_nv.c): linear scan for the first semaphore slot
whose pool back-pointer is null; marks it owned and returns its index, or
returns NULL leaving the pool unchanged.  A slot is `true` when owned. -/
def nv_sem_pool_get_sem (sems : List Bool) : Option Nat × List Bool :=
  match sems.findIdx? (fun b => !b) with
  | some i => (some i, sems.set i true)
  | none => (none, sems)

/-- nv_sem_pool_return_sem (hal_nv.c): clears the slot's pool back-pointer. -/
def nv_sem_pool_return_sem (sems : List Bool) (i : Nat) : List Bool :=
  sems.set i false

/-! ## NV memory engine (hal_nv.c, worker-task config) -/

/-- NV_MemDevice_T (hal_nv.h): the engine state touched by the public API
paths — the init flag, the lock and op_in_progress flags, the request queue,
the semaphore pool (owned flags) and the buffer pool.  The device array, the
scratch page_buffer pointer and the per-device contents live outside this
record: the write loop takes them as parameters. -/
structure NV_MemDevice where
  was_init : Bool
  lock : Bool
  op_in_progress : Bool
  dev_requests : NV_RequestQueue
  dev_semaphores : List Bool
  buf_pool : BPool
deriving DecidableEq, Repr

/-- What a synchronous public call does before it would block: either it
returns immediately with a result (validation failure, Locked, no semaphore,
queue full), or it has enqueued its request holding semaphore `sem` and the
calling thread blocks on that semaphore until the consumer signals it. -/
inductive NV_SyncOutcome where
  | immediate (r : NV_OpResult)
  | enqueued (sem : Nat)
deriving DecidableEq, Repr

/-- NV_ReadSync (hal_nv.c), producer side, worker-task configuration, up to
the point where the caller blocks.  Validation requires an initialized
engine, a non-zero size and an in-map range (the null handle and null dst
checks concern pointers not modeled); failing it returns NVOP_BAD_REQUEST.
A locked engine returns NVOP_LOCKED before touching the semaphore pool or
the queue.  Otherwise a semaphore is acquired (NVOP_NO_SEM_AVAIL if none),
then nv_add_request fills a queue slot (on a full queue the semaphore is
returned and NVOP_TOO_MANY_REQ reported).  After the consumer completes the
request the caller wakes and returns the sempahore and the result written
into its slot; that part is the consumer's and is not in this step. -/
def NV_ReadSync (s : NV_MemDevice) (map : NV_AddressMap) (addr size : Nat) :
    NV_MemDevice × NV_SyncOutcome :=
  if ¬(s.was_init = true ∧ size ≠ 0 ∧ nv_is_block_avail map addr size = true) then
    (s, NV_SyncOutcome.immediate NV_OpResult.NVOP_BAD_REQUEST)
  else if s.lock then (s, NV_SyncOutcome.immediate NV_OpResult.NVOP_LOCKED)
  else
    match nv_sem_pool_get_sem s.dev_semaphores with
    | (none, _) => (s, NV_SyncOutcome.immediate NV_OpResult.NVOP_NO_SEM_AVAIL)
    | (some i, sems1) =>
      match nv_allocate_request s.dev_requests with
      | (some _, q1) =>
        ({ s with dev_semaphores := sems1, dev_requests := q1 },
         NV_SyncOutcome.enqueued i)
      | (none, _) =>
        ({ s with dev_semaphores := nv_sem_pool_return_sem sems1 i },
         NV_SyncOutcome.immediate NV_OpResult.NVOP_TOO_MANY_REQ)

/-- NV_WriteSync (hal_nv.c), producer side, worker-task configuration: the
same gating as NV_ReadSync; the source bytes are wrapped as a standalone
partial buffer on the caller's stack (BP_InitStandaloneBuf touches no pool
state) and an NV_SYNC_WRITE request is enqueued. -/
def NV_WriteSync (s : NV_MemDevice) (map : NV_AddressMap) (addr size : Nat) :
    NV_MemDevice × NV_SyncOutcome :=
  if ¬(s.was_init = true ∧ size ≠ 0 ∧ nv_is_block_avail map addr size = true) then
    (s, NV_SyncOutcome.immediate NV_OpResult.NVOP_BAD_REQUEST)
  else if s.lock then (s, NV_SyncOutcome.immediate NV_OpResult.NVOP_LOCKED)
  else
    match nv_sem_pool_get_sem s.dev_semaphores with
    | (none, _) => (s, NV_SyncOutcome.immediate NV_OpResult.NVOP_NO_SEM_AVAIL)
    | (some i, sems1) =>
      match nv_allocate_request s.dev_requests with
      | (some _, q1) =>
        ({ s with dev_semaphores := sems1, dev_requests := q1 },
         NV_SyncOutcome.enqueued i)
      | (none, _) =>
        ({ s with dev_semaphores := nv_sem_pool_return_sem sems1 i },
         NV_SyncOutcome.immediate NV_OpResult.NVOP_TOO_MANY_REQ)

/-- NV_Erase (hal_nv.c), producer side, worker-task configuration: validation
checks only the handles and the init flag (no address range), then the same
lock gate, semaphore acquisition and enqueue as the synchronous paths. -/
def NV_Erase (s : NV_MemDevice) : NV_MemDevice × NV_SyncOutcome :=
  if ¬(s.was_init = true) then
    (s, NV_SyncOutcome.immediate NV_OpResult.NVOP_BAD_REQUEST)
  else if s.lock then (s, NV_SyncOutcome.immediate NV_OpResult.NVOP_LOCKED)
  else
    match nv_sem_pool_get_sem s.dev_semaphores with
    | (none, _) => (s, NV_SyncOutcome.immediate NV_OpResult.NVOP_NO_SEM_AVAIL)
    | (some i, sems1) =>
      match nv_allocate_request s.dev_requests with
      | (some _, q1) =>
        ({ s with dev_semaphores := sems1, dev_requests := q1 },
         NV_SyncOutcome.enqueued i)
      | (none, _) =>
        ({ s with dev_semaphores := nv_sem_pool_return_sem sems1 i },
         NV_SyncOutcome.immediate NV_OpResult.NVOP_TOO_MANY_REQ)

/-- NV_WriteAsync (hal_nv.c): returns the new engine state, the function's
return value and the ordered list of assignments the call makes through the
caller's resultOut pointer (NV_ASSIGN_RESULT).  Validation failure assigns
and returns NVOP_BAD_REQUEST; a locked engine assigns and returns
NVOP_LOCKED; otherwise NVOP_IN_PROGRESS is assigned first, then a chained
buffer sized to the request is taken from the pool (on failure
NVOP_NO_BUF_AVAIL is assigned and returned with the pool untouched), the
source bytes are copied into it (BP_CopyToBuf; bytes not tracked) and an
NV_ASYNC_WRITE request is enqueued: on success the call returns NVOP_OK with
the slot still holding NVOP_IN_PROGRESS; if the queue is full the failure is
assigned and returned — the C code keeps the chain (it is not released on
that path).  The outer `none` propagates BP_GetBuffer's undefined-behavior
case, which no validated theorem input reaches. -/
def NV_WriteAsync (s : NV_MemDevice) (map : NV_AddressMap) (addr size : Nat) :
    Option (NV_MemDevice × NV_OpResult × List NV_OpResult) :=
  if ¬(s.was_init = true ∧ size ≠ 0 ∧ nv_is_block_avail map addr size = true) then
    some (s, NV_OpResult.NVOP_BAD_REQUEST, [NV_OpResult.NVOP_BAD_REQUEST])
  else if s.lock then
    some (s, NV_OpResult.NVOP_LOCKED, [NV_OpResult.NVOP_LOCKED])
  else
    match BP_GetBuffer s.buf_pool size with
    | none => none
    | some (none, _) =>
      some (s, NV_OpResult.NVOP_NO_BUF_AVAIL,
        [NV_OpResult.NVOP_IN_PROGRESS, NV_OpResult.NVOP_NO_BUF_AVAIL])
    | some (some _, pool1) =>
      match nv_allocate_request s.dev_requests with
      | (some _, q1) =>
        some ({ s with buf_pool := pool1, dev_requests := q1 },
          NV_OpResult.NVOP_OK, [NV_OpResult.NVOP_IN_PROGRESS])
      | (none, _) =>
        some ({ s with buf_pool := pool1 },
          NV_OpResult.NVOP_TOO_MANY_REQ,
          [NV_OpResult.NVOP_IN_PROGRESS, NV_OpResult.NVOP_TOO_MANY_REQ])

/-- NV_MemDeviceLock (hal_nv.c): sets the lock flag unconditionally (for a
non-null handle), then, when a flush is requested: if a physical operation is
mid-flight it returns NVOP_IN_PROGRESS — with the lock flag left set;
otherwise it drains the whole request queue synchronously and returns
NVOP_OK.  Without flush it returns NVOP_OK at once. -/
def NV_MemDeviceLock (s : NV_MemDevice) (flush : Bool) :
    NV_MemDevice × NV_OpResult :=
  let s1 := { s with lock := true }
  if flush then
    if s1.op_in_progress then (s1, NV_OpResult.NVOP_IN_PROGRESS)
    else
      ({ s1 with
          dev_requests :=
            nv_drain (s1.dev_requests.pending_requests + 1) s1.dev_requests },
        NV_OpResult.NVOP_OK)
  else (s1, NV_OpResult.NVOP_OK)

/-- NV_MemDeviceUnlock (hal_nv.c): clears the lock flag of an initialized
engine. -/
def NV_MemDeviceUnlock (s : NV_MemDevice) : NV_MemDevice :=
  if s.was_init then { s with lock := false } else s

/-! ## Theorems -/

/-- Pointwise effect of the write loop on the device contents: inside the
requested range the new contents are the source bytes, outside it they are
untouched — also inside the partially covered first and last write units,
because there the loop first reads the whole unit back from the device. -/
theorem nv_write_loop_mem (map : NV_AddressMap) (src : Nat → Nat) :
    ∀ (fuel : Nat) (len : Nat) (mem buf : Nat → Nat) (so na : Nat),
      0 < map.write_len_unit → 0 < len → len ≤ fuel →
      map.start_addr ≤ na → na + len - 1 ≤ map.end_addr →
      ∀ a, (nv_write_loop map src fuel mem buf so na len).1 a =
        if na ≤ a ∧ a < na + len then src (so + (a - na)) else mem a := by
  intro fuel
  induction fuel with
  | zero =>
    intro len mem buf so na _ hl hf
    omega
  | succ fuel ih =>
    intro len mem buf so na hu hl hf hs he a
    have hna_end : na ≤ map.end_addr := by omega
    set u := map.write_len_unit with hu_def
    set p := u * (na / u) with hp_def
    have hblk : nv_get_block_at map na = (u, p) := by
      simp [nv_get_block_at, hs, hna_end]
    have hu0 : ¬(u = 0) := by omega
    obtain ⟨r, hr1, hr2⟩ : ∃ r, p + r = na ∧ r < u :=
      ⟨na % u, by rw [hp_def]; exact Nat.div_add_mod na u, Nat.mod_lt na hu⟩
    simp only [nv_write_loop, hblk, hu0, if_false]
    by_cases hstop : len - min len (u - (na - p)) = 0
    · rw [if_pos hstop]
      simp only []
      split_ifs <;> first | rfl | omega | (congr 1; omega)
    · rw [if_neg hstop]
      have hws : min len (u - (na - p)) = u - (na - p) := by omega
      rw [ih (len - min len (u - (na - p))) _ _
        (so + min len (u - (na - p))) (na + min len (u - (na - p)))
        hu (by omega) (by omega) (by omega) (by omega) a]
      try simp only []
      split_ifs <;> first | rfl | omega | (congr 1; omega)

/-- C1: for a device whose read/write callbacks model a byte-array medium and
every (addr, size) with size > 0 lying within the device's AddressMap,
processing a synchronous write of `size` bytes of `src` at `addr` through the
page-aligned read-modify-write algorithm and then reading the same range back
yields exactly the written bytes. -/
theorem claim_C1 (map : NV_AddressMap) (src mem buf : Nat → Nat) (addr size : Nat)
    (hunit : 0 < map.write_len_unit) (hsize : 0 < size)
    (hlo : map.start_addr ≤ addr) (hhi : addr + size - 1 ≤ map.end_addr) :
    ∀ i < size,
      nv_read_bytes (nv_process_write_request map src mem buf addr size true).1.1
        addr i = src i := by
  intro i hi
  show (nv_write_loop map src (size + 1) mem buf 0 addr size).1 (addr + i) = src i
  rw [nv_write_loop_mem map src (size + 1) size mem buf 0 addr hunit hsize
    (by omega) hlo hhi]
  rw [if_pos (by omega)]
  congr 1
  omega

/-- Witness for C1 at the spec's concrete scenario (unit 256, write of 20
bytes at 250). -/
theorem claim_C1_witness :
    0 < (NV_AddressMap.mk 0 1023 256).write_len_unit ∧ 0 < 20 ∧
      (NV_AddressMap.mk 0 1023 256).start_addr ≤ 250 ∧
      250 + 20 - 1 ≤ (NV_AddressMap.mk 0 1023 256).end_addr ∧
      (∀ i < 20,
        nv_read_bytes
          (nv_process_write_request (NV_AddressMap.mk 0 1023 256) (fun k => k + 7)
            (fun _ => 3) (fun _ => 5) 250 20 true).1.1 250 i = (fun k => k + 7) i) :=
  ⟨by decide, by decide, by decide, by decide,
   claim_C1 (NV_AddressMap.mk 0 1023 256) (fun k => k + 7) (fun _ => 3) (fun _ => 5)
     250 20 (by decide) (by decide) (by decide) (by decide)⟩

/-- C2: a write request whose range does not cover whole write-units leaves
every device byte outside [addr, addr+size) — in particular every such byte
of the touched pages — equal to its previous contents; on the byte-array
medium every per-page device read and write succeeds. -/
theorem claim_C2 (map : NV_AddressMap) (src mem buf : Nat → Nat) (addr size : Nat)
    (hunit : 0 < map.write_len_unit) (hsize : 0 < size)
    (hlo : map.start_addr ≤ addr) (hhi : addr + size - 1 ≤ map.end_addr)
    (_hNotAligned :
      ¬(addr % map.write_len_unit = 0 ∧ size % map.write_len_unit = 0)) :
    ∀ a, a < addr ∨ addr + size ≤ a →
      (nv_process_write_request map src mem buf addr size true).1.1 a = mem a := by
  intro a ha
  show (nv_write_loop map src (size + 1) mem buf 0 addr size).1 a = mem a
  rw [nv_write_loop_mem map src (size + 1) size mem buf 0 addr hunit hsize
    (by omega) hlo hhi]
  rw [if_neg (by omega)]

/-- Witness for C2: the straddling write of 20 bytes at 250 with unit 256. -/
theorem claim_C2_witness :
    0 < (NV_AddressMap.mk 0 1023 256).write_len_unit ∧ 0 < 20 ∧
      (NV_AddressMap.mk 0 1023 256).start_addr ≤ 250 ∧
      250 + 20 - 1 ≤ (NV_AddressMap.mk 0 1023 256).end_addr ∧
      ¬(250 % (NV_AddressMap.mk 0 1023 256).write_len_unit = 0 ∧
        20 % (NV_AddressMap.mk 0 1023 256).write_len_unit = 0) ∧
      (∀ a, a < 250 ∨ 250 + 20 ≤ a →
        (nv_process_write_request (NV_AddressMap.mk 0 1023 256) (fun k => k + 7)
          (fun _ => 3) (fun _ => 5) 250 20 true).1.1 a = (fun _ => (3 : Nat)) a) :=
  ⟨by decide, by decide, by decide, by decide, by decide,
   claim_C2 (NV_AddressMap.mk 0 1023 256) (fun k => k + 7) (fun _ => 3) (fun _ => 5)
     250 20 (by decide) (by decide) (by decide) (by decide) (by decide)⟩

/-- C4: on the device map start 0, end 1023, writeUnit 256, processing a
synchronous write of 20 bytes at address 250 performs exactly two page
read-modify-write cycles, on page addresses 0 and 256 in that order, each
page write preceded by a full-page (256-byte) device read, whatever the
source bytes, the device contents and the scratch buffer contents are. -/
theorem claim_C4 :
    ∀ (src mem buf : Nat → Nat),
      (nv_process_write_request (NV_AddressMap.mk 0 1023 256) src mem buf
        250 20 true).1.2.2 =
      [PageOp.mk 0 (some 256), PageOp.mk 256 (some 256)] := by
  intro src mem buf
  rfl

/-- Counterexample for C3 as frozen: with the map start 0, end 1023 the pair
addr = 4294967295, size = 2 passes nv_is_block_avail — the uint32 sum
addr + (size - 1) wraps to 0 — although in exact integer arithmetic
addr + size - 1 = 4294967296 lies far outside the address map. -/
theorem claim_C3_cex :
    nv_is_block_avail (NV_AddressMap.mk 0 1023 256) 4294967295 2 = true ∧
      ¬(4294967295 + 2 - 1 ≤ 1023) := by
  constructor
  · decide
  · decide

/-- C3 amended: for size > 0 the validation predicate accepts (addr, size)
iff start ≤ addr and the uint32-wrapped last offset (addr + size - 1) mod
2^32 is at most end; when addr + size - 1 < 2^32 (no uint32 overflow) this is
exactly the exact-arithmetic containment of [addr, addr+size) in the map, and
an initialized engine's NV_ReadSync refuses with NVOP_BAD_REQUEST exactly on
the inputs the predicate rejects. -/
theorem claim_C3_amended (map : NV_AddressMap) (addr size : Nat) (hsize : 0 < size) :
    (nv_is_block_avail map addr size = true ↔
      map.start_addr ≤ addr ∧ (addr + (size - 1)) % U32 ≤ map.end_addr) ∧
    (addr + size - 1 < U32 →
      (nv_is_block_avail map addr size = true ↔
        map.start_addr ≤ addr ∧ addr + size - 1 ≤ map.end_addr)) ∧
    (∀ s : NV_MemDevice, s.was_init = true →
      ((NV_ReadSync s map addr size).2 ≠
          NV_SyncOutcome.immediate NV_OpResult.NVOP_BAD_REQUEST ↔
        nv_is_block_avail map addr size = true)) := by
  have hU : U32 = 4294967296 := rfl
  have h1 : nv_is_block_avail map addr size = true ↔
      map.start_addr ≤ addr ∧ (addr + (size - 1)) % U32 ≤ map.end_addr := by
    rw [nv_is_block_avail, decide_eq_true_eq, hU]
    omega
  refine ⟨h1, ?_, ?_⟩
  · intro hov
    rw [h1, hU]
    rw [hU] at hov
    constructor
    · rintro ⟨ha, hb⟩
      refine ⟨ha, ?_⟩
      omega
    · rintro ⟨ha, hb⟩
      refine ⟨ha, ?_⟩
      omega
  · intro s hinit
    by_cases hav : nv_is_block_avail map addr size = true
    · simp only [hav, iff_true]
      rw [NV_ReadSync, if_neg (by simp [hinit, hav]; omega)]
      by_cases hlock : s.lock
      · rw [if_pos hlock]
        simp
      · rw [if_neg hlock]
        rcases hsem : nv_sem_pool_get_sem s.dev_semaphores with ⟨oi, sems1⟩
        rcases oi with _ | i
        · simp
        · rcases halloc : nv_allocate_request s.dev_requests with ⟨oslot, q1⟩
          rcases oslot with _ | slot
          · simp [halloc]
          · simp [halloc]
    · constructor
      · intro hne
        exfalso
        apply hne
        rw [NV_ReadSync, if_pos (by simp [hav])]
      · intro h
        exact absurd h hav

/-- Witness for C3 amended at size 2, addr 100, map start 0 end 1023. -/
theorem claim_C3_amended_witness :
    0 < 2 ∧
      ((nv_is_block_avail (NV_AddressMap.mk 0 1023 256) 100 2 = true ↔
        (NV_AddressMap.mk 0 1023 256).start_addr ≤ 100 ∧
          (100 + (2 - 1)) % U32 ≤ (NV_AddressMap.mk 0 1023 256).end_addr) ∧
      (100 + 2 - 1 < U32 →
        (nv_is_block_avail (NV_AddressMap.mk 0 1023 256) 100 2 = true ↔
          (NV_AddressMap.mk 0 1023 256).start_addr ≤ 100 ∧
            100 + 2 - 1 ≤ (NV_AddressMap.mk 0 1023 256).end_addr)) ∧
      (∀ s : NV_MemDevice, s.was_init = true →
        ((NV_ReadSync s (NV_AddressMap.mk 0 1023 256) 100 2).2 ≠
            NV_SyncOutcome.immediate NV_OpResult.NVOP_BAD_REQUEST ↔
          nv_is_block_avail (NV_AddressMap.mk 0 1023 256) 100 2 = true))) :=
  ⟨by decide, claim_C3_amended (NV_AddressMap.mk 0 1023 256) 100 2 (by decide)⟩

/-- C7: on an initialized, locked engine every public operation —
NV_ReadSync, NV_WriteSync, NV_Erase, NV_WriteAsync — returns NVOP_LOCKED
immediately with the engine state (request queue, semaphore pool, buffer
pool) unchanged: no semaphore is acquired, no buffer allocated, no request
queued; NV_WriteAsync also assigns only NVOP_LOCKED to the caller's result
slot.  The state being unchanged, the lock flag persists, so this holds for
every subsequent call until NV_MemDeviceUnlock clears the flag. -/
theorem claim_C7 (s : NV_MemDevice) (map : NV_AddressMap) (addr size : Nat)
    (hinit : s.was_init = true) (hlock : s.lock = true)
    (hsize : size ≠ 0) (hav : nv_is_block_avail map addr size = true) :
    NV_ReadSync s map addr size =
      (s, NV_SyncOutcome.immediate NV_OpResult.NVOP_LOCKED) ∧
    NV_WriteSync s map addr size =
      (s, NV_SyncOutcome.immediate NV_OpResult.NVOP_LOCKED) ∧
    NV_Erase s = (s, NV_SyncOutcome.immediate NV_OpResult.NVOP_LOCKED) ∧
    NV_WriteAsync s map addr size =
      some (s, NV_OpResult.NVOP_LOCKED, [NV_OpResult.NVOP_LOCKED]) ∧
    NV_MemDeviceUnlock s = { s with lock := false } := by
  refine ⟨?_, ?_, ?_, ?_, ?_⟩ <;>
    simp [NV_ReadSync, NV_WriteSync, NV_Erase, NV_WriteAsync, NV_MemDeviceUnlock,
      hinit, hlock, hsize, hav]

/-- Witness for C7 at a concrete locked engine. -/
theorem claim_C7_witness :
    (NV_MemDevice.mk true true false (NV_RequestQueue.mk 2 0 0 0) [false]
        (BPool.mk [BPChunk.mk false 16 none] 1 16)).was_init = true ∧
    (NV_MemDevice.mk true true false (NV_RequestQueue.mk 2 0 0 0) [false]
        (BPool.mk [BPChunk.mk false 16 none] 1 16)).lock = true ∧
    (1 : Nat) ≠ 0 ∧
    nv_is_block_avail (NV_AddressMap.mk 0 1023 256) 0 1 = true ∧
    (NV_ReadSync
        (NV_MemDevice.mk true true false (NV_RequestQueue.mk 2 0 0 0) [false]
          (BPool.mk [BPChunk.mk false 16 none] 1 16)) (NV_AddressMap.mk 0 1023 256)
        0 1 =
      ((NV_MemDevice.mk true true false (NV_RequestQueue.mk 2 0 0 0) [false]
          (BPool.mk [BPChunk.mk false 16 none] 1 16)),
        NV_SyncOutcome.immediate NV_OpResult.NVOP_LOCKED) ∧
      NV_WriteSync
        (NV_MemDevice.mk true true false (NV_RequestQueue.mk 2 0 0 0) [false]
          (BPool.mk [BPChunk.mk false 16 none] 1 16)) (NV_AddressMap.mk 0 1023 256)
        0 1 =
      ((NV_MemDevice.mk true true false (NV_RequestQueue.mk 2 0 0 0) [false]
          (BPool.mk [BPChunk.mk false 16 none] 1 16)),
        NV_SyncOutcome.immediate NV_OpResult.NVOP_LOCKED) ∧
      NV_Erase
        (NV_MemDevice.mk true true false (NV_RequestQueue.mk 2 0 0 0) [false]
          (BPool.mk [BPChunk.mk false 16 none] 1 16)) =
      ((NV_MemDevice.mk true true false (NV_RequestQueue.mk 2 0 0 0) [false]
          (BPool.mk [BPChunk.mk false 16 none] 1 16)),
        NV_SyncOutcome.immediate NV_OpResult.NVOP_LOCKED) ∧
      NV_WriteAsync
        (NV_MemDevice.mk true true false (NV_RequestQueue.mk 2 0 0 0) [false]
          (BPool.mk [BPChunk.mk false 16 none] 1 16)) (NV_AddressMap.mk 0 1023 256)
        0 1 =
      some
        ((NV_MemDevice.mk true true false (NV_RequestQueue.mk 2 0 0 0) [false]
            (BPool.mk [BPChunk.mk false 16 none] 1 16)),
          NV_OpResult.NVOP_LOCKED, [NV_OpResult.NVOP_LOCKED]) ∧
      NV_MemDeviceUnlock
        (NV_MemDevice.mk true true false (NV_RequestQueue.mk 2 0 0 0) [false]
          (BPool.mk [BPChunk.mk false 16 none] 1 16)) =
      { NV_MemDevice.mk true true false (NV_RequestQueue.mk 2 0 0 0) [false]
          (BPool.mk [BPChunk.mk false 16 none] 1 16) with lock := false }) :=
  ⟨by decide, by decide, by decide, by decide,
   claim_C7
     (NV_MemDevice.mk true true false (NV_RequestQueue.mk 2 0 0 0) [false]
       (BPool.mk [BPChunk.mk false 16 none] 1 16)) (NV_AddressMap.mk 0 1023 256)
     0 1 (by decide) (by decide) (by decide) (by decide)⟩

/-- C10: NV_MemDeviceLock with flush requested while a physical operation is
in flight returns NVOP_IN_PROGRESS but still leaves the engine's lock flag
set, so each of NV_ReadSync, NV_WriteSync, NV_Erase, NV_WriteAsync on the
resulting state returns NVOP_LOCKED immediately (state unchanged) until
NV_MemDeviceUnlock is called. -/
theorem claim_C10 (s : NV_MemDevice) (map : NV_AddressMap) (addr size : Nat)
    (hinit : s.was_init = true) (hop : s.op_in_progress = true)
    (hsize : size ≠ 0) (hav : nv_is_block_avail map addr size = true) :
    NV_MemDeviceLock s true =
      ({ s with lock := true }, NV_OpResult.NVOP_IN_PROGRESS) ∧
    NV_ReadSync { s with lock := true } map addr size =
      ({ s with lock := true }, NV_SyncOutcome.immediate NV_OpResult.NVOP_LOCKED) ∧
    NV_WriteSync { s with lock := true } map addr size =
      ({ s with lock := true }, NV_SyncOutcome.immediate NV_OpResult.NVOP_LOCKED) ∧
    NV_Erase { s with lock := true } =
      ({ s with lock := true }, NV_SyncOutcome.immediate NV_OpResult.NVOP_LOCKED) ∧
    NV_WriteAsync { s with lock := true } map addr size =
      some ({ s with lock := true }, NV_OpResult.NVOP_LOCKED,
        [NV_OpResult.NVOP_LOCKED]) ∧
    NV_MemDeviceUnlock { s with lock := true } = { s with lock := false } := by
  refine ⟨?_, ?_, ?_, ?_, ?_, ?_⟩ <;>
    simp [NV_MemDeviceLock, NV_ReadSync, NV_WriteSync, NV_Erase, NV_WriteAsync,
      NV_MemDeviceUnlock, hinit, hop, hsize, hav]

/-- Witness for C10 at a concrete engine with an operation in flight. -/
theorem claim_C10_witness :
    (NV_MemDevice.mk true false true (NV_RequestQueue.mk 2 0 0 0) [false]
        (BPool.mk [BPChunk.mk false 16 none] 1 16)).was_init = true ∧
    (NV_MemDevice.mk true false true (NV_RequestQueue.mk 2 0 0 0) [false]
        (BPool.mk [BPChunk.mk false 16 none] 1 16)).op_in_progress = true ∧
    (1 : Nat) ≠ 0 ∧
    nv_is_block_avail (NV_AddressMap.mk 0 1023 256) 0 1 = true ∧
    (NV_MemDeviceLock
        (NV_MemDevice.mk true false true (NV_RequestQueue.mk 2 0 0 0) [false]
          (BPool.mk [BPChunk.mk false 16 none] 1 16)) true =
      ({ NV_MemDevice.mk true false true (NV_RequestQueue.mk 2 0 0 0) [false]
          (BPool.mk [BPChunk.mk false 16 none] 1 16) with lock := true },
        NV_OpResult.NVOP_IN_PROGRESS) ∧
      NV_ReadSync
        { NV_MemDevice.mk true false true (NV_RequestQueue.mk 2 0 0 0) [false]
            (BPool.mk [BPChunk.mk false 16 none] 1 16) with lock := true }
        (NV_AddressMap.mk 0 1023 256) 0 1 =
      ({ NV_MemDevice.mk true false true (NV_RequestQueue.mk 2 0 0 0) [false]
          (BPool.mk [BPChunk.mk false 16 none] 1 16) with lock := true },
        NV_SyncOutcome.immediate NV_OpResult.NVOP_LOCKED) ∧
      NV_WriteSync
        { NV_MemDevice.mk true false true (NV_RequestQueue.mk 2 0 0 0) [false]
            (BPool.mk [BPChunk.mk false 16 none] 1 16) with lock := true }
        (NV_AddressMap.mk 0 1023 256) 0 1 =
      ({ NV_MemDevice.mk true false true (NV_RequestQueue.mk 2 0 0 0) [false]
          (BPool.mk [BPChunk.mk false 16 none] 1 16) with lock := true },
        NV_SyncOutcome.immediate NV_OpResult.NVOP_LOCKED) ∧
      NV_Erase
        { NV_MemDevice.mk true false true (NV_RequestQueue.mk 2 0 0 0) [false]
            (BPool.mk [BPChunk.mk false 16 none] 1 16) with lock := true } =
      ({ NV_MemDevice.mk true false true (NV_RequestQueue.mk 2 0 0 0) [false]
          (BPool.mk [BPChunk.mk false 16 none] 1 16) with lock := true },
        NV_SyncOutcome.immediate NV_OpResult.NVOP_LOCKED) ∧
      NV_WriteAsync
        { NV_MemDevice.mk true false true (NV_RequestQueue.mk 2 0 0 0) [false]
            (BPool.mk [BPChunk.mk false 16 none] 1 16) with lock := true }
        (NV_AddressMap.mk 0 1023 256) 0 1 =
      some
        ({ NV_MemDevice.mk true false true (NV_RequestQueue.mk 2 0 0 0) [false]
            (BPool.mk [BPChunk.mk false 16 none] 1 16) with lock := true },
          NV_OpResult.NVOP_LOCKED, [NV_OpResult.NVOP_LOCKED]) ∧
      NV_MemDeviceUnlock
        { NV_MemDevice.mk true false true (NV_RequestQueue.mk 2 0 0 0) [false]
            (BPool.mk [BPChunk.mk false 16 none] 1 16) with lock := true } =
      { NV_MemDevice.mk true false true (NV_RequestQueue.mk 2 0 0 0) [false]
          (BPool.mk [BPChunk.mk false 16 none] 1 16) with lock := false }) :=
  ⟨by decide, by decide, by decide, by decide,
   claim_C10
     (NV_MemDevice.mk true false true (NV_RequestQueue.mk 2 0 0 0) [false]
       (BPool.mk [BPChunk.mk false 16 none] 1 16)) (NV_AddressMap.mk 0 1023 256)
     0 1 (by decide) (by decide) (by decide) (by decide)⟩

/-- C8: NV_WriteAsync's result-slot protocol.  Locked: NVOP_LOCKED is
returned and is the only slot assignment.  Unlocked: the first slot
assignment is NVOP_IN_PROGRESS; when the pool cannot supply the chain the
call returns NVOP_NO_BUF_AVAIL and assigns it after the NVOP_IN_PROGRESS;
on success the call returns NVOP_OK leaving the slot holding
NVOP_IN_PROGRESS.  When the queued asynchronous write is processed, the
staging buffer is released back to the pool first and the final result is
assigned to the slot only afterwards (release-then-report). -/
theorem claim_C8 (s : NV_MemDevice) (map : NV_AddressMap) (addr size : Nat)
    (hinit : s.was_init = true) (hsize : size ≠ 0)
    (hav : nv_is_block_avail map addr size = true) :
    (s.lock = true →
      NV_WriteAsync s map addr size =
        some (s, NV_OpResult.NVOP_LOCKED, [NV_OpResult.NVOP_LOCKED])) ∧
    (s.lock = false →
      (∀ p, BP_GetBuffer s.buf_pool size = some (none, p) →
        NV_WriteAsync s map addr size =
          some (s, NV_OpResult.NVOP_NO_BUF_AVAIL,
            [NV_OpResult.NVOP_IN_PROGRESS, NV_OpResult.NVOP_NO_BUF_AVAIL])) ∧
      (∀ h p, BP_GetBuffer s.buf_pool size = some (some h, p) →
        s.dev_requests.pending_requests < s.dev_requests.max_no_requests →
        NV_WriteAsync s map addr size =
          some ({ s with
              buf_pool := p
              dev_requests := (nv_allocate_request s.dev_requests).2 },
            NV_OpResult.NVOP_OK, [NV_OpResult.NVOP_IN_PROGRESS]))) ∧
    (∀ src mem buf a l,
      (nv_process_write_request map src mem buf a l false).2 =
        [NV_Event.bufReleased, NV_Event.resultSet NV_OpResult.NVOP_OK]) := by
  refine ⟨?_, ?_, ?_⟩
  · intro hlock
    simp [NV_WriteAsync, hinit, hsize, hav, hlock]
  · intro hlock
    constructor
    · intro p hbp
      rw [NV_WriteAsync, if_neg (by simp [hinit, hav]; omega), if_neg (by simp [hlock]),
        hbp]
    · intro h p hbp hq
      rw [NV_WriteAsync, if_neg (by simp [hinit, hav]; omega), if_neg (by simp [hlock]),
        hbp]
      rcases halloc : nv_allocate_request s.dev_requests with ⟨oslot, q1⟩
      rcases oslot with _ | slot
      · rw [nv_allocate_request, if_pos hq] at halloc
        exact absurd (congrArg Prod.fst halloc) (by simp)
      · simp [halloc]
  · intro src mem buf a l
    rfl

/-- Witness for C8 at a concrete unlocked engine with a one-chunk pool. -/
theorem claim_C8_witness :
    (NV_MemDevice.mk true false false (NV_RequestQueue.mk 2 0 0 0) [false]
        (BPool.mk [BPChunk.mk false 16 none] 1 16)).was_init = true ∧
    (1 : Nat) ≠ 0 ∧
    nv_is_block_avail (NV_AddressMap.mk 0 1023 256) 0 1 = true ∧
    (((NV_MemDevice.mk true false false (NV_RequestQueue.mk 2 0 0 0) [false]
          (BPool.mk [BPChunk.mk false 16 none] 1 16)).lock = true →
      NV_WriteAsync
          (NV_MemDevice.mk true false false (NV_RequestQueue.mk 2 0 0 0) [false]
            (BPool.mk [BPChunk.mk false 16 none] 1 16))
          (NV_AddressMap.mk 0 1023 256) 0 1 =
        some
          ((NV_MemDevice.mk true false false (NV_RequestQueue.mk 2 0 0 0) [false]
              (BPool.mk [BPChunk.mk false 16 none] 1 16)),
            NV_OpResult.NVOP_LOCKED, [NV_OpResult.NVOP_LOCKED])) ∧
      ((NV_MemDevice.mk true false false (NV_RequestQueue.mk 2 0 0 0) [false]
          (BPool.mk [BPChunk.mk false 16 none] 1 16)).lock = false →
        (∀ p, BP_GetBuffer
            (NV_MemDevice.mk true false false (NV_RequestQueue.mk 2 0 0 0) [false]
              (BPool.mk [BPChunk.mk false 16 none] 1 16)).buf_pool 1 =
            some (none, p) →
          NV_WriteAsync
              (NV_MemDevice.mk true false false (NV_RequestQueue.mk 2 0 0 0) [false]
                (BPool.mk [BPChunk.mk false 16 none] 1 16))
              (NV_AddressMap.mk 0 1023 256) 0 1 =
            some
              ((NV_MemDevice.mk true false false (NV_RequestQueue.mk 2 0 0 0) [false]
                  (BPool.mk [BPChunk.mk false 16 none] 1 16)),
                NV_OpResult.NVOP_NO_BUF_AVAIL,
                [NV_OpResult.NVOP_IN_PROGRESS, NV_OpResult.NVOP_NO_BUF_AVAIL])) ∧
        (∀ h p, BP_GetBuffer
            (NV_MemDevice.mk true false false (NV_RequestQueue.mk 2 0 0 0) [false]
              (BPool.mk [BPChunk.mk false 16 none] 1 16)).buf_pool 1 =
            some (some h, p) →
          (NV_MemDevice.mk true false false (NV_RequestQueue.mk 2 0 0 0) [false]
              (BPool.mk [BPChunk.mk false 16 none] 1 16)).dev_requests.pending_requests <
            (NV_MemDevice.mk true false false (NV_RequestQueue.mk 2 0 0 0) [false]
              (BPool.mk [BPChunk.mk false 16 none] 1 16)).dev_requests.max_no_requests →
          NV_WriteAsync
              (NV_MemDevice.mk true false false (NV_RequestQueue.mk 2 0 0 0) [false]
                (BPool.mk [BPChunk.mk false 16 none] 1 16))
              (NV_AddressMap.mk 0 1023 256) 0 1 =
            some
              ({ NV_MemDevice.mk true false false (NV_RequestQueue.mk 2 0 0 0) [false]
                  (BPool.mk [BPChunk.mk false 16 none] 1 16) with
                  buf_pool := p
                  dev_requests :=
                    (nv_allocate_request
                      (NV_MemDevice.mk true false false (NV_RequestQueue.mk 2 0 0 0)
                        [false]
                        (BPool.mk [BPChunk.mk false 16 none] 1 16)).dev_requests).2 },
                NV_OpResult.NVOP_OK, [NV_OpResult.NVOP_IN_PROGRESS]))) ∧
      (∀ src mem buf a l,
        (nv_process_write_request (NV_AddressMap.mk 0 1023 256) src mem buf a l
            false).2 =
          [NV_Event.bufReleased, NV_Event.resultSet NV_OpResult.NVOP_OK])) :=
  ⟨by decide, by decide, by decide,
   claim_C8
     (NV_MemDevice.mk true false false (NV_RequestQueue.mk 2 0 0 0) [false]
       (BPool.mk [BPChunk.mk false 16 none] 1 16)) (NV_AddressMap.mk 0 1023 256)
     0 1 (by decide) (by decide) (by decide)⟩

/-- The C circular-index advance `i++; if (i == N) i = 0;` computes the
successor modulo N. -/
theorem mod_succ_wrap (m N : Nat) (hN : 0 < N) :
    (m + 1) % N = if m % N + 1 = N then 0 else m % N + 1 := by
  have h1 : m % N < N := Nat.mod_lt _ hN
  have key : (m + 1) % N = (m % N + 1) % N := by
    conv_lhs => rw [← Nat.mod_add_div m N]
    rw [Nat.add_right_comm, Nat.mul_comm, Nat.add_mul_mod_self_right]
  by_cases h : m % N + 1 = N
  · rw [if_pos h, key, h, Nat.mod_self]
  · rw [if_neg h, key, Nat.mod_eq_of_lt (by omega)]

/-- Closed form of k successful allocations starting from the empty queue of
capacity N with head = tail = t. -/
theorem nv_alloc_iter_closed (N t : Nat) (hN : 0 < N) (ht : t < N) :
    ∀ k, k ≤ N →
      nv_alloc_iter (NV_RequestQueue.mk N 0 t t) k =
        NV_RequestQueue.mk N k t ((t + k) % N) := by
  intro k
  induction k with
  | zero =>
    intro _
    rw [nv_alloc_iter, Nat.add_zero, Nat.mod_eq_of_lt ht]
  | succ k ih =>
    intro hk
    rw [nv_alloc_iter, ih (by omega), nv_allocate_request,
      if_pos (show k < N by omega)]
    simp only [NV_RequestQueue.mk.injEq]
    refine ⟨trivial, trivial, trivial, ?_⟩
    rw [show t + (k + 1) = t + k + 1 from rfl, mod_succ_wrap (t + k) N hN]

/-- Closed form of k successful dequeues starting from the full queue of
capacity N with head = tail = t. -/
theorem nv_deq_iter_closed (N t : Nat) (hN : 0 < N) (ht : t < N) :
    ∀ k, k ≤ N →
      nv_deq_iter (NV_RequestQueue.mk N N t t) k =
        NV_RequestQueue.mk N (N - k) ((t + k) % N) t := by
  intro k
  induction k with
  | zero =>
    intro _
    rw [nv_deq_iter, Nat.add_zero, Nat.mod_eq_of_lt ht, Nat.sub_zero]
  | succ k ih =>
    intro hk
    rw [nv_deq_iter, ih (by omega), nv_get_request,
      if_pos (show N - k ≠ 0 by omega)]
    simp only [NV_RequestQueue.mk.injEq]
    refine ⟨trivial, by omega, ?_, trivial⟩
    rw [show t + (k + 1) = t + k + 1 from rfl, mod_succ_wrap (t + k) N hN]

/-- C6: for a request queue of capacity N, allocation fails exactly when
pending = N (given the pending ≤ capacity invariant); starting from the empty
queue with head = tail = t, N allocations all succeed, the following N
dequeues all succeed, and the queue returns to pending = 0 with head = tail
at their original value; at every intermediate state pending never exceeds N
and head and tail stay below N. -/
theorem claim_C6 (N t : Nat) (hN : 0 < N) (ht : t < N) :
    (∀ q : NV_RequestQueue, q.max_no_requests = N → q.pending_requests ≤ N →
      ((nv_allocate_request q).1 = none ↔ q.pending_requests = N)) ∧
    (∀ k, k < N →
      ((nv_allocate_request
        (nv_alloc_iter (NV_RequestQueue.mk N 0 t t) k)).1).isSome = true) ∧
    (∀ k, k < N →
      ((nv_get_request
        (nv_deq_iter (nv_alloc_iter (NV_RequestQueue.mk N 0 t t) N)
          k)).1).isSome = true) ∧
    nv_deq_iter (nv_alloc_iter (NV_RequestQueue.mk N 0 t t) N) N =
      NV_RequestQueue.mk N 0 t t ∧
    (∀ k, k ≤ N →
      (nv_alloc_iter (NV_RequestQueue.mk N 0 t t) k).pending_requests ≤ N ∧
      (nv_alloc_iter (NV_RequestQueue.mk N 0 t t) k).head < N ∧
      (nv_alloc_iter (NV_RequestQueue.mk N 0 t t) k).tail < N) ∧
    (∀ k, k ≤ N →
      (nv_deq_iter (nv_alloc_iter (NV_RequestQueue.mk N 0 t t) N)
        k).pending_requests ≤ N ∧
      (nv_deq_iter (nv_alloc_iter (NV_RequestQueue.mk N 0 t t) N) k).head < N ∧
      (nv_deq_iter (nv_alloc_iter (NV_RequestQueue.mk N 0 t t) N) k).tail < N) := by
  have hAN : nv_alloc_iter (NV_RequestQueue.mk N 0 t t) N =
      NV_RequestQueue.mk N N t t := by
    rw [nv_alloc_iter_closed N t hN ht N le_rfl]
    simp only [NV_RequestQueue.mk.injEq]
    exact ⟨trivial, trivial, trivial, by rw [Nat.add_mod_right, Nat.mod_eq_of_lt ht]⟩
  refine ⟨?_, ?_, ?_, ?_, ?_, ?_⟩
  · intro q hmax hpend
    by_cases hc : q.pending_requests < q.max_no_requests
    · rw [nv_allocate_request, if_pos hc]
      rw [hmax] at hc
      simp only [reduceCtorEq, false_iff]
      omega
    · rw [nv_allocate_request, if_neg hc]
      rw [hmax] at hc
      simp only [true_iff]
      omega
  · intro k hk
    rw [nv_alloc_iter_closed N t hN ht k (by omega), nv_allocate_request,
      if_pos (by show k < N; omega)]
    rfl
  · intro k hk
    rw [hAN, nv_deq_iter_closed N t hN ht k (by omega), nv_get_request,
      if_pos (by show N - k ≠ 0; omega)]
    rfl
  · rw [hAN, nv_deq_iter_closed N t hN ht N le_rfl]
    simp only [NV_RequestQueue.mk.injEq]
    exact ⟨trivial, by omega, by rw [Nat.add_mod_right, Nat.mod_eq_of_lt ht], trivial⟩
  · intro k hk
    rw [nv_alloc_iter_closed N t hN ht k hk]
    exact ⟨by show k ≤ N; omega, ht, Nat.mod_lt _ hN⟩
  · intro k hk
    rw [hAN, nv_deq_iter_closed N t hN ht k hk]
    exact ⟨by show N - k ≤ N; omega, Nat.mod_lt _ hN, ht⟩

/-- Witness for C6 at capacity 3, initial index 1. -/
theorem claim_C6_witness :
    0 < 3 ∧ 1 < 3 ∧
    ((∀ q : NV_RequestQueue, q.max_no_requests = 3 → q.pending_requests ≤ 3 →
      ((nv_allocate_request q).1 = none ↔ q.pending_requests = 3)) ∧
    (∀ k, k < 3 →
      ((nv_allocate_request
        (nv_alloc_iter (NV_RequestQueue.mk 3 0 1 1) k)).1).isSome = true) ∧
    (∀ k, k < 3 →
      ((nv_get_request
        (nv_deq_iter (nv_alloc_iter (NV_RequestQueue.mk 3 0 1 1) 3)
          k)).1).isSome = true) ∧
    nv_deq_iter (nv_alloc_iter (NV_RequestQueue.mk 3 0 1 1) 3) 3 =
      NV_RequestQueue.mk 3 0 1 1 ∧
    (∀ k, k ≤ 3 →
      (nv_alloc_iter (NV_RequestQueue.mk 3 0 1 1) k).pending_requests ≤ 3 ∧
      (nv_alloc_iter (NV_RequestQueue.mk 3 0 1 1) k).head < 3 ∧
      (nv_alloc_iter (NV_RequestQueue.mk 3 0 1 1) k).tail < 3) ∧
    (∀ k, k ≤ 3 →
      (nv_deq_iter (nv_alloc_iter (NV_RequestQueue.mk 3 0 1 1) 3)
        k).pending_requests ≤ 3 ∧
      (nv_deq_iter (nv_alloc_iter (NV_RequestQueue.mk 3 0 1 1) 3) k).head < 3 ∧
      (nv_deq_iter (nv_alloc_iter (NV_RequestQueue.mk 3 0 1 1) 3) k).tail < 3)) :=
  ⟨by decide, by decide, claim_C6 3 1 (by decide) (by decide)⟩

/-- getD after set at a different index. -/
theorem getD_set_ne (l : List BPChunk) (i k : Nat) (a : BPChunk) (h : i ≠ k) :
    (l.set i a).getD k default = l.getD k default := by
  simp [List.getD_eq_getElem?_getD, List.getElem?_set_ne h]

/-- getD after set at the same (in-range) index. -/
theorem getD_set_self (l : List BPChunk) (i : Nat) (a : BPChunk)
    (h : i < l.length) :
    (l.set i a).getD i default = a := by
  simp [List.getD_eq_getElem?_getD, List.getElem?_set_self', h]

/-- Free-chunk count over a cons cell. -/
theorem countFree_cons (c : BPChunk) (rest : List BPChunk) :
    countFree (c :: rest) = (if c.owned then 0 else 1) + countFree rest := by
  by_cases h : c.owned
  · simp [countFree, List.countP_cons, h]
  · simp [countFree, List.countP_cons, h]
    omega

/-- A getLastD of a nonempty list is a member. -/
theorem getLastD_mem_of_ne_nil (l : List Nat) (d : Nat) (h : l ≠ []) :
    l.getLastD d ∈ l := by
  induction l generalizing d with
  | nil => exact absurd rfl h
  | cons a l ih =>
    cases l with
    | nil => simp [List.getLastD]
    | cons b l' =>
      have := ih a (by simp)
      simp only [List.getLastD]
      exact List.mem_cons_of_mem a this

/-- The getLastD of a nonempty list does not depend on the default. -/
theorem getLastD_indep (l : List Nat) (d d' : Nat) (h : l ≠ []) :
    l.getLastD d = l.getLastD d' := by
  cases l with
  | nil => exact absurd rfl h
  | cons a l' => simp [List.getLastD]

/-- The scan succeeds exactly when enough free chunks exist. -/
theorem bp_scan_isSome :
    ∀ (chunks : List BPChunk) (base needed : Nat),
      (bp_scan base needed chunks).isSome = true ↔ needed ≤ countFree chunks := by
  intro chunks
  induction chunks with
  | nil =>
    intro base needed
    cases needed with
    | zero => simp [bp_scan, countFree]
    | succ n => simp [bp_scan, countFree]
  | cons c rest ih =>
    intro base needed
    cases needed with
    | zero => simp [bp_scan]
    | succ n =>
      by_cases h : c.owned
      · simp only [bp_scan, if_pos h]
        rw [ih (base + 1) (n + 1), countFree_cons, if_pos h]
        omega
      · simp only [bp_scan, if_neg h]
        have hms : (Option.map (fun l => base :: l)
            (bp_scan (base + 1) n rest)).isSome
            = (bp_scan (base + 1) n rest).isSome := by
          cases bp_scan (base + 1) n rest <;> rfl
        rw [hms, ih (base + 1) n, countFree_cons, if_neg h]
        omega

/-- What a successful scan returns: exactly `needed` indices, strictly
increasing, all at or after `base`, in range, and naming free chunks. -/
theorem bp_scan_spec :
    ∀ (chunks : List BPChunk) (base needed : Nat) (sel : List Nat),
      bp_scan base needed chunks = some sel →
      sel.length = needed ∧ List.Chain' (· < ·) sel ∧
        (∀ i ∈ sel, base ≤ i ∧ i - base < chunks.length ∧
          (chunks.getD (i - base) default).owned = false) := by
  intro chunks
  induction chunks with
  | nil =>
    intro base needed sel h
    cases needed with
    | zero =>
      simp only [bp_scan, Option.some.injEq] at h
      subst h
      simp
    | succ n => simp [bp_scan] at h
  | cons c rest ih =>
    intro base needed sel h
    cases needed with
    | zero =>
      simp only [bp_scan, Option.some.injEq] at h
      subst h
      simp
    | succ n =>
      by_cases hc : c.owned
      · simp only [bp_scan, if_pos hc] at h
        obtain ⟨h1, h2, h3⟩ := ih (base + 1) (n + 1) sel h
        refine ⟨h1, h2, ?_⟩
        intro i hi
        obtain ⟨ha, hb, hq⟩ := h3 i hi
        refine ⟨by omega, by simp only [List.length_cons]; omega, ?_⟩
        rw [show i - base = (i - (base + 1)) + 1 by omega]
        simpa using hq
      · simp only [bp_scan, if_neg hc] at h
        rcases hmap : bp_scan (base + 1) n rest with _ | sel'
        · rw [hmap] at h
          simp at h
        · rw [hmap] at h
          simp only [Option.map_some', Option.some.injEq] at h
          subst h
          obtain ⟨h1, h2, h3⟩ := ih (base + 1) n sel' hmap
          have hgt : ∀ i ∈ sel', base < i := by
            intro i hi
            have := (h3 i hi).1
            omega
          refine ⟨by simp [h1], ?_, ?_⟩
          · cases sel' with
            | nil => simp
            | cons x xs =>
              rw [List.chain'_cons]
              exact ⟨hgt x (by simp), h2⟩
          · intro i hi
            rcases List.mem_cons.1 hi with hib | hit
            · subst hib
              refine ⟨le_rfl, by simp, ?_⟩
              simp [hc]
            · obtain ⟨ha, hb, hq⟩ := h3 i hit
              refine ⟨by omega, by simp only [List.length_cons]; omega, ?_⟩
              rw [show i - base = (i - (base + 1)) + 1 by omega]
              simpa using hq

/-- What the linking writes of BP_GetBuffer do, for a strictly increasing
in-range selection: untouched chunks keep their descriptor, every selected
chunk becomes owned with its size preserved, consecutive selected chunks are
linked through next in scan order, and the last selected chunk gets a null
next. -/
theorem bp_link_spec :
    ∀ (sel : List Nat) (cs : List BPChunk),
      List.Chain' (· < ·) sel → (∀ i ∈ sel, i < cs.length) →
      (bp_link sel cs).length = cs.length ∧
      (∀ k, k ∉ sel → (bp_link sel cs).getD k default = cs.getD k default) ∧
      (∀ i ∈ sel, ((bp_link sel cs).getD i default).owned = true ∧
        ((bp_link sel cs).getD i default).size = (cs.getD i default).size) ∧
      List.Chain' (fun i j => ((bp_link sel cs).getD i default).next = some j)
        sel ∧
      (sel ≠ [] → ((bp_link sel cs).getD (sel.getLastD 0) default).next = none) := by
  intro sel
  induction sel with
  | nil =>
    intro cs _ _
    simp only [bp_link]
    exact ⟨by simp, by simp, by simp, by simp, by simp⟩
  | cons i rest ih =>
    intro cs hchain hbound
    cases rest with
    | nil =>
      have hi : i < cs.length := hbound i (by simp)
      have hset := getD_set_self cs i
        { cs.getD i default with owned := true, next := none } hi
      simp only [bp_link]
      refine ⟨by simp, ?_, ?_, ?_, ?_⟩
      · intro k hk
        have hki : ¬(k = i) := by simpa using hk
        exact getD_set_ne cs i k _ (fun he => hki he.symm)
      · intro x hx
        have hxi : x = i := by simpa using hx
        subst hxi
        rw [hset]
        exact ⟨rfl, rfl⟩
      · simp
      · intro _
        rw [show List.getLastD [i] 0 = i from rfl, hset]
    | cons j rest' =>
      simp only [bp_link]
      have hi : i < cs.length := hbound i (by simp)
      have hij : i < j := (List.chain'_cons.1 hchain).1
      have hchain' : List.Chain' (· < ·) (j :: rest') :=
        (List.chain'_cons.1 hchain).2
      have hpair : ∀ x ∈ j :: rest', i < x := by
        have hp : List.Pairwise (· < ·) (i :: j :: rest') :=
          List.chain'_iff_pairwise.1 hchain
        intro x hx
        exact (List.pairwise_cons.1 hp).1 x hx
      set c2 : BPChunk := { cs.getD i default with owned := true, next := some j }
        with hc2
      set cs1 := cs.set i c2 with hcs1
      have hlen1 : cs1.length = cs.length := by rw [hcs1, List.length_set]
      have hbound' : ∀ x ∈ j :: rest', x < cs1.length := by
        intro x hx
        rw [hlen1]
        exact hbound x (List.mem_cons_of_mem _ hx)
      obtain ⟨ihlen, ihout, ihown, ihchain, ihlast⟩ := ih cs1 hchain' hbound'
      have hgi : (bp_link (j :: rest') cs1).getD i default = c2 := by
        rw [ihout i (fun hmem => absurd (hpair i hmem) (lt_irrefl i)), hcs1]
        exact getD_set_self cs i c2 hi
      refine ⟨?_, ?_, ?_, ?_, ?_⟩
      · rw [ihlen, hlen1]
      · intro k hk
        have hk1 : k ∉ j :: rest' := fun h => hk (List.mem_cons_of_mem _ h)
        have hk2 : ¬(k = i) := fun h => hk (by simp [h])
        rw [ihout k hk1, hcs1, getD_set_ne cs i k c2 (fun he => hk2 he.symm)]
      · intro x hx
        rcases List.mem_cons.1 hx with hxi | hxt
        · subst hxi
          rw [hgi]
          exact ⟨rfl, rfl⟩
        · obtain ⟨ho, hs⟩ := ihown x hxt
          refine ⟨ho, ?_⟩
          rw [hs, hcs1,
            getD_set_ne cs i x c2 (Nat.ne_of_lt (hpair x hxt))]
      · rw [List.chain'_cons]
        refine ⟨?_, ihchain⟩
        rw [hgi]
      · intro _
        have hne : (j :: rest') ≠ [] := by simp
        rw [show List.getLastD (i :: j :: rest') 0 =
          List.getLastD (j :: rest') i from rfl]
        rw [getLastD_indep (j :: rest') i 0 hne]
        exact ihlast hne

/-- Counterexample for C5 as frozen: on a pool of one free 16-byte chunk the
request L = 4294967295 makes the uint32 expression (L + 15) / 16 wrap to
quotient 0.  The spec requires the call to fail cleanly with the no-buffer
value (ceil(L/16) far exceeds the free chunks), but the C function instead
runs its taking loop zero times, writes through the uninitialized prev
pointer and dereferences the NULL ob (`ob->size = buf_len`), modeled as the
undefined-behavior result `none` — not the no-buffer return. -/
theorem claim_C5_cex :
    BP_GetBuffer (BPool.mk [BPChunk.mk false 16 none] 1 16) 4294967295 = none := by
  decide

/-- C5 amended: for L > 0 with L + chunkSize - 1 < 2^32 (the uint32 ceiling
computation does not wrap) and a pool whose availableCount matches its free
chunks, BP_GetBuffer succeeds iff ceil(L/chunkSize) chunks are free and that
many chunks exist at all; on success it returns the head of a pool chain of
exactly ceil(L/chunkSize) previously free chunks linked in scan order, the
head chunk's size field holds the exact requested L, all chain chunks are
owned, availableCount drops by ceil(L/chunkSize) and every other chunk is
untouched; otherwise it returns the no-buffer value and changes nothing. -/
theorem claim_C5_amended (bp : BPool) (L : Nat) (hL : 0 < L)
    (hC : 0 < bp.buf_len) (hCL : L + bp.buf_len - 1 < U32)
    (hinv : bp.avail_buffers = countFree bp.chunks) :
    ((∃ h bp', BP_GetBuffer bp L = some (some h, bp')) ↔
      (L + (bp.buf_len - 1)) / bp.buf_len ≤ bp.avail_buffers ∧
      (L + (bp.buf_len - 1)) / bp.buf_len ≤ bp.chunks.length) ∧
    ((L + (bp.buf_len - 1)) / bp.buf_len > bp.avail_buffers ∨
        (L + (bp.buf_len - 1)) / bp.buf_len > bp.chunks.length →
      BP_GetBuffer bp L = some (none, bp)) ∧
    (∀ h bp', BP_GetBuffer bp L = some (some h, bp') →
      ∃ sel, IsPoolChain bp' sel ∧
        sel.length = (L + (bp.buf_len - 1)) / bp.buf_len ∧
        h = sel.headD 0 ∧
        (bp'.chunks.getD h default).size = L ∧
        bp'.avail_buffers =
          bp.avail_buffers - (L + (bp.buf_len - 1)) / bp.buf_len ∧
        bp'.buf_len = bp.buf_len ∧
        bp'.chunks.length = bp.chunks.length ∧
        (∀ i ∈ sel, (bp.chunks.getD i default).owned = false) ∧
        (∀ k, k ∉ sel → bp'.chunks.getD k default = bp.chunks.getD k default)) := by
  have hL0 : ¬(L = 0) := by omega
  have hmod : (L + (bp.buf_len - 1)) % U32 = L + (bp.buf_len - 1) :=
    Nat.mod_eq_of_lt (by omega)
  set D := (L + (bp.buf_len - 1)) / bp.buf_len with hD
  have hD1 : 1 ≤ D := by
    rw [hD, Nat.le_div_iff_mul_le hC]
    omega
  have hGB : BP_GetBuffer bp L =
      (if bp.chunks.length < D then some (none, bp)
       else if bp.avail_buffers < D then some (none, bp)
       else
         match bp_scan 0 D bp.chunks with
         | none => none
         | some sel =>
           some (some (sel.headD 0),
             BPool.mk
               ((bp_link sel bp.chunks).set (sel.headD 0)
                 { (bp_link sel bp.chunks).getD (sel.headD 0) default with
                     size := L })
               (bp.avail_buffers - D) bp.buf_len)) := by
    rw [BP_GetBuffer, if_neg hL0]
    simp only [hmod, ← hD]
    rw [if_neg (by omega)]
  refine ⟨?_, ?_, ?_⟩
  · constructor
    · rintro ⟨h, bp', hsome⟩
      rw [hGB] at hsome
      by_cases h1 : bp.chunks.length < D
      · rw [if_pos h1] at hsome
        simp at hsome
      · rw [if_neg h1] at hsome
        by_cases h2 : bp.avail_buffers < D
        · rw [if_pos h2] at hsome
          simp at hsome
        · exact ⟨by omega, by omega⟩
    · rintro ⟨h1, h2⟩
      have hscan : (bp_scan 0 D bp.chunks).isSome = true :=
        (bp_scan_isSome bp.chunks 0 D).2 (by rw [← hinv]; exact h1)
      rcases hs : bp_scan 0 D bp.chunks with _ | sel
      · rw [hs] at hscan
        simp at hscan
      · rw [hGB, if_neg (by omega), if_neg (by omega), hs]
        exact ⟨sel.headD 0, _, rfl⟩
  · intro hfail
    rw [hGB]
    by_cases h1 : bp.chunks.length < D
    · rw [if_pos h1]
    · rw [if_neg h1, if_pos (by omega)]
  · intro h bp' hsome
    rw [hGB] at hsome
    have h1 : ¬(bp.chunks.length < D) := by
      intro hlt
      rw [if_pos hlt] at hsome
      simp at hsome
    rw [if_neg h1] at hsome
    have h2 : ¬(bp.avail_buffers < D) := by
      intro hlt
      rw [if_pos hlt] at hsome
      simp at hsome
    rw [if_neg h2] at hsome
    rcases hs : bp_scan 0 D bp.chunks with _ | sel
    · rw [hs] at hsome
      simp at hsome
    · rw [hs] at hsome
      simp only [Option.some.injEq, Prod.mk.injEq] at hsome
      obtain ⟨hh, hbp⟩ := hsome
      obtain ⟨hlen, hchain, hmem⟩ := bp_scan_spec bp.chunks 0 D sel hs
      have hmem' : ∀ i ∈ sel, i < bp.chunks.length ∧
          (bp.chunks.getD i default).owned = false := by
        intro i hi
        have := hmem i hi
        rw [Nat.sub_zero] at this
        exact ⟨this.2.1, this.2.2⟩
      have hboundd : ∀ i ∈ sel, i < bp.chunks.length :=
        fun i hi => (hmem' i hi).1
      obtain ⟨llen, lout, lown, lchain, llast⟩ :=
        bp_link_spec sel bp.chunks hchain hboundd
      have hselne : sel ≠ [] := by
        intro he
        rw [he] at hlen
        simp at hlen
        omega
      have hhead : sel.headD 0 ∈ sel := by
        cases sel with
        | nil => exact absurd rfl hselne
        | cons a l => simp
      have hheadlt : sel.headD 0 < (bp_link sel bp.chunks).length := by
        rw [llen]
        exact hboundd _ hhead
      have hcs2_hd :
          ((bp_link sel bp.chunks).set (sel.headD 0)
              { (bp_link sel bp.chunks).getD (sel.headD 0) default with
                  size := L }).getD (sel.headD 0) default =
            { (bp_link sel bp.chunks).getD (sel.headD 0) default with
                size := L } :=
        getD_set_self _ _ _ hheadlt
      have hcs2_ne : ∀ k, ¬(k = sel.headD 0) →
          ((bp_link sel bp.chunks).set (sel.headD 0)
              { (bp_link sel bp.chunks).getD (sel.headD 0) default with
                  size := L }).getD k default =
            (bp_link sel bp.chunks).getD k default :=
        fun k hk => getD_set_ne _ _ _ _ (fun he => hk he.symm)
      have hnext_pres : ∀ k,
          (((bp_link sel bp.chunks).set (sel.headD 0)
              { (bp_link sel bp.chunks).getD (sel.headD 0) default with
                  size := L }).getD k default).next =
            ((bp_link sel bp.chunks).getD k default).next := by
        intro k
        by_cases hk : k = sel.headD 0
        · subst hk
          rw [hcs2_hd]
        · rw [hcs2_ne k hk]
      have hown_pres : ∀ k,
          (((bp_link sel bp.chunks).set (sel.headD 0)
              { (bp_link sel bp.chunks).getD (sel.headD 0) default with
                  size := L }).getD k default).owned =
            ((bp_link sel bp.chunks).getD k default).owned := by
        intro k
        by_cases hk : k = sel.headD 0
        · subst hk
          rw [hcs2_hd]
        · rw [hcs2_ne k hk]
      subst hbp
      refine ⟨sel, ⟨hselne, hchain, ?_, ?_, ?_⟩, hlen, hh.symm, ?_, rfl, rfl, ?_,
        fun i hi => (hmem' i hi).2, ?_⟩
      · intro i hi
        constructor
        · show i < ((bp_link sel bp.chunks).set _ _).length
          rw [List.length_set, llen]
          exact hboundd i hi
        · show (((bp_link sel bp.chunks).set _ _).getD i default).owned = true
          rw [hown_pres i]
          exact (lown i hi).1
      · exact lchain.imp (fun a b hab => by rw [hnext_pres a]; exact hab)
      · show (((bp_link sel bp.chunks).set _ _).getD (sel.getLastD 0)
            default).next = none
        rw [hnext_pres]
        exact llast hselne
      · subst hh
        show (((bp_link sel bp.chunks).set _ _).getD (sel.headD 0)
            default).size = L
        rw [hcs2_hd]
      · show ((bp_link sel bp.chunks).set _ _).length = bp.chunks.length
        rw [List.length_set, llen]
      · intro k hk
        have hkh : ¬(k = sel.headD 0) := fun he => hk (he ▸ hhead)
        show ((bp_link sel bp.chunks).set _ _).getD k default =
          bp.chunks.getD k default
        rw [hcs2_ne k hkh, lout k hk]

/-- Witness for C5 amended: a two-chunk pool of chunk size 16 and a request
of 20 bytes. -/
theorem claim_C5_amended_witness :
    0 < 20 ∧
    0 < (BPool.mk [BPChunk.mk false 16 none, BPChunk.mk false 16 none] 2
        16).buf_len ∧
    20 + (BPool.mk [BPChunk.mk false 16 none, BPChunk.mk false 16 none] 2
        16).buf_len - 1 < U32 ∧
    (BPool.mk [BPChunk.mk false 16 none, BPChunk.mk false 16 none] 2
        16).avail_buffers =
      countFree (BPool.mk [BPChunk.mk false 16 none, BPChunk.mk false 16 none] 2
        16).chunks ∧
    (((∃ h bp', BP_GetBuffer
        (BPool.mk [BPChunk.mk false 16 none, BPChunk.mk false 16 none] 2 16) 20 =
        some (some h, bp')) ↔
      (20 + ((BPool.mk [BPChunk.mk false 16 none, BPChunk.mk false 16 none] 2
          16).buf_len - 1)) /
        (BPool.mk [BPChunk.mk false 16 none, BPChunk.mk false 16 none] 2
          16).buf_len ≤
        (BPool.mk [BPChunk.mk false 16 none, BPChunk.mk false 16 none] 2
          16).avail_buffers ∧
      (20 + ((BPool.mk [BPChunk.mk false 16 none, BPChunk.mk false 16 none] 2
          16).buf_len - 1)) /
        (BPool.mk [BPChunk.mk false 16 none, BPChunk.mk false 16 none] 2
          16).buf_len ≤
        (BPool.mk [BPChunk.mk false 16 none, BPChunk.mk false 16 none] 2
          16).chunks.length) ∧
    ((20 + ((BPool.mk [BPChunk.mk false 16 none, BPChunk.mk false 16 none] 2
          16).buf_len - 1)) /
        (BPool.mk [BPChunk.mk false 16 none, BPChunk.mk false 16 none] 2
          16).buf_len >
        (BPool.mk [BPChunk.mk false 16 none, BPChunk.mk false 16 none] 2
          16).avail_buffers ∨
        (20 + ((BPool.mk [BPChunk.mk false 16 none, BPChunk.mk false 16 none] 2
          16).buf_len - 1)) /
        (BPool.mk [BPChunk.mk false 16 none, BPChunk.mk false 16 none] 2
          16).buf_len >
        (BPool.mk [BPChunk.mk false 16 none, BPChunk.mk false 16 none] 2
          16).chunks.length →
      BP_GetBuffer
        (BPool.mk [BPChunk.mk false 16 none, BPChunk.mk false 16 none] 2 16) 20 =
        some (none,
          BPool.mk [BPChunk.mk false 16 none, BPChunk.mk false 16 none] 2 16)) ∧
    (∀ h bp', BP_GetBuffer
        (BPool.mk [BPChunk.mk false 16 none, BPChunk.mk false 16 none] 2 16) 20 =
        some (some h, bp') →
      ∃ sel, IsPoolChain bp' sel ∧
        sel.length =
          (20 + ((BPool.mk [BPChunk.mk false 16 none, BPChunk.mk false 16 none] 2
            16).buf_len - 1)) /
          (BPool.mk [BPChunk.mk false 16 none, BPChunk.mk false 16 none] 2
            16).buf_len ∧
        h = sel.headD 0 ∧
        (bp'.chunks.getD h default).size = 20 ∧
        bp'.avail_buffers =
          (BPool.mk [BPChunk.mk false 16 none, BPChunk.mk false 16 none] 2
            16).avail_buffers -
          (20 + ((BPool.mk [BPChunk.mk false 16 none, BPChunk.mk false 16 none] 2
            16).buf_len - 1)) /
          (BPool.mk [BPChunk.mk false 16 none, BPChunk.mk false 16 none] 2
            16).buf_len ∧
        bp'.buf_len =
          (BPool.mk [BPChunk.mk false 16 none, BPChunk.mk false 16 none] 2
            16).buf_len ∧
        bp'.chunks.length =
          (BPool.mk [BPChunk.mk false 16 none, BPChunk.mk false 16 none] 2
            16).chunks.length ∧
        (∀ i ∈ sel,
          ((BPool.mk [BPChunk.mk false 16 none, BPChunk.mk false 16 none] 2
            16).chunks.getD i default).owned = false) ∧
        (∀ k, k ∉ sel →
          bp'.chunks.getD k default =
            (BPool.mk [BPChunk.mk false 16 none, BPChunk.mk false 16 none] 2
              16).chunks.getD k default))) :=
  ⟨by decide, by decide, by decide, by decide,
   claim_C5_amended
     (BPool.mk [BPChunk.mk false 16 none, BPChunk.mk false 16 none] 2 16) 20
     (by decide) (by decide) (by decide) (by decide)⟩

/-- uint32 subtraction via the additive complement: for b ≤ a < 2^32 the C
expression (a + (2^32 - b)) mod 2^32 equals a - b. -/
theorem u32_sub (a b : Nat) (hba : b ≤ a) (ha : a < U32) :
    (a + (U32 - b)) % U32 = a - b := by
  have hb : b ≤ U32 := by omega
  rw [show a + (U32 - b) = U32 + (a - b) by omega, Nat.add_mod_left]
  exact Nat.mod_eq_of_lt (by omega)

/-- A strictly increasing list of naturals below n has at most n elements. -/
theorem chain_lt_length_le (sel : List Nat) (n : Nat)
    (hch : List.Chain' (· < ·) sel) (hb : ∀ i ∈ sel, i < n) :
    sel.length ≤ n := by
  have hnd : sel.Nodup :=
    (List.chain'_iff_pairwise.1 hch).imp (fun h => Nat.ne_of_lt h)
  calc sel.length = sel.toFinset.card := (List.toFinset_card_of_nodup hnd).symm
    _ ≤ (Finset.range n).card :=
        Finset.card_le_card
          (fun i hi => Finset.mem_range.2 (hb i (List.mem_toFinset.1 hi)))
    _ = n := Finset.card_range n

/-- Chain transfer along a pointwise-equal relation for the members of the
list (the left endpoint of every link is a member). -/
theorem chain'_transfer {R S : Nat → Nat → Prop} :
    ∀ l : List Nat, (∀ a ∈ l, ∀ b, R a b → S a b) →
      List.Chain' R l → List.Chain' S l := by
  intro l
  induction l with
  | nil => intro _ _; simp
  | cons a l ih =>
    intro hrs hch
    rw [List.chain'_cons'] at hch ⊢
    refine ⟨fun y hy => hrs a (by simp) y (hch.1 y hy), ?_⟩
    exact ih (fun x hx b hb => hrs x (List.mem_cons_of_mem a hx) b hb) hch.2

/-- The hop loop of BP_CopyToMem under no-wrap conditions: starting at node
k with buffer offset single·(k+1), it stops at the node containing
src_offset, i.e. node src_offset / single. -/
theorem bp_hop_loop_spec (single so ℓ : Nat) (hs : 0 < single)
    (hnw : so + single < U32) (hlt : so / single < ℓ) :
    ∀ fuel k, k ≤ so / single → so / single - k < fuel →
      bp_hop_loop single so fuel (single * (k + 1)) (ℓ - k) =
        some (single * (so / single + 1), ℓ - so / single) := by
  intro fuel
  induction fuel with
  | zero =>
    intro k hk hf
    omega
  | succ fuel ih =>
    intro k hk hf
    rw [bp_hop_loop]
    by_cases hexit : so < single * (k + 1)
    · rw [if_pos hexit]
      have hdk : so / single < k + 1 := by
        rw [Nat.div_lt_iff_lt_mul hs]
        calc so < single * (k + 1) := hexit
          _ = (k + 1) * single := Nat.mul_comm _ _
      have hkh : k = so / single := by omega
      rw [hkh]
    · rw [if_neg hexit]
      have hk1 : k + 1 ≤ so / single := by
        rw [Nat.le_div_iff_mul_le hs, Nat.mul_comm]
        omega
      have hcnt : ¬(ℓ - k = 0) := by omega
      rw [if_neg hcnt]
      have hstep : single * (k + 1) + single = single * (k + 2) := by ring
      have harg : (single * (k + 1) + single) % U32 = single * (k + 2) := by
        rw [hstep]
        apply Nat.mod_eq_of_lt
        have hle : single * (k + 2) = single * (k + 1) + single := by ring
        omega
      rw [harg, show ℓ - k - 1 = ℓ - (k + 1) by omega]
      exact ih (k + 1) hk1 (by omega)

/-- The trailing copy loop of BP_CopyToMem succeeds whenever the nodes after
the current one can hold the remaining bytes. -/
theorem bp_copy_loop_true (single : Nat) :
    ∀ fuel cnt dl, 1 ≤ cnt → dl ≤ (cnt - 1) * single → cnt ≤ fuel →
      bp_copy_loop single fuel cnt dl = true := by
  intro fuel
  induction fuel with
  | zero =>
    intro cnt dl h1 _ h3
    omega
  | succ fuel ih =>
    intro cnt dl h1 h2 h3
    rw [bp_copy_loop]
    by_cases hdl : dl = 0
    · rw [if_pos hdl]
    · rw [if_neg hdl]
      have hcm : ¬(cnt - 1 = 0) := by
        intro h0
        rw [h0, Nat.zero_mul] at h2
        omega
      rw [if_neg (show ¬(cnt ≤ 1) by omega)]
      apply ih (cnt - 1) (dl - min single dl) (by omega) ?_ (by omega)
      have h4 : cnt - 1 - 1 + 1 = cnt - 1 := by omega
      have hsm : (cnt - 1) * single = (cnt - 1 - 1) * single + single := by
        calc (cnt - 1) * single = (cnt - 1 - 1 + 1) * single := by rw [h4]
          _ = (cnt - 1 - 1) * single + single := Nat.succ_mul _ _
      omega

/-- The release walk succeeds on every pool chain: each visited chunk is
owned, so the avail_buffers increment always dereferences a valid pool
back-pointer; the walk follows the next links and stops at the null next of
the last chunk, and the final mutual-exclusion release (an argument-ignoring
macro) touches no pointer. -/
theorem bp_release_walk_chain :
    ∀ (sel : List Nat) (bp : BPool) (fuel : Nat),
      IsPoolChain bp sel → sel.length ≤ fuel →
      ∃ bp', bp_release_walk fuel bp (sel.headD 0) = some bp' ∧
        bp'.avail_buffers = bp.avail_buffers + sel.length ∧
        bp'.buf_len = bp.buf_len ∧
        bp'.chunks.length = bp.chunks.length := by
  intro sel
  induction sel with
  | nil =>
    intro bp fuel hch _
    exact absurd rfl hch.1
  | cons i rest ih =>
    intro bp fuel hch hf
    obtain ⟨hne, hchain, hmem, hlinks, hlast⟩ := hch
    cases fuel with
    | zero => simp at hf
    | succ fuel =>
      have hio : (bp.chunks.getD i default).owned = true := (hmem i (by simp)).2
      have hilen : i < bp.chunks.length := (hmem i (by simp)).1
      simp only [List.headD_cons, bp_release_walk]
      rw [if_neg (not_not_intro hio)]
      cases rest with
      | nil =>
        have hnx : (bp.chunks.getD i default).next = none := hlast
        rw [hnx]
        refine ⟨_, rfl, by simp, rfl, by simp⟩
      | cons j rest' =>
        have hnx : (bp.chunks.getD i default).next = some j :=
          (List.chain'_cons.1 hlinks).1
        rw [hnx]
        have hpair : ∀ x ∈ j :: rest', i < x := by
          have hp : List.Pairwise (· < ·) (i :: j :: rest') :=
            List.chain'_iff_pairwise.1 hchain
          intro x hx
          exact (List.pairwise_cons.1 hp).1 x hx
        have hch1 : IsPoolChain
            (BPool.mk
              (bp.chunks.set i
                { bp.chunks.getD i default with owned := false, next := some j })
              (bp.avail_buffers + 1) bp.buf_len) (j :: rest') := by
          refine ⟨by simp, (List.chain'_cons.1 hchain).2, ?_, ?_, ?_⟩
          · intro x hx
            refine ⟨?_, ?_⟩
            · show x < (bp.chunks.set i _).length
              rw [List.length_set]
              exact (hmem x (List.mem_cons_of_mem _ hx)).1
            · show ((bp.chunks.set i _).getD x default).owned = true
              rw [getD_set_ne bp.chunks i x _ (Nat.ne_of_lt (hpair x hx))]
              exact (hmem x (List.mem_cons_of_mem _ hx)).2
          · refine chain'_transfer (j :: rest') ?_ (List.chain'_cons.1 hlinks).2
            intro a ha b hab
            show ((bp.chunks.set i _).getD a default).next = some b
            rw [getD_set_ne bp.chunks i a _ (Nat.ne_of_lt (hpair a ha))]
            exact hab
          · have hl2 : (bp.chunks.getD (List.getLastD (j :: rest') i)
                default).next = none := hlast
            rw [getLastD_indep (j :: rest') i 0 (by simp)] at hl2
            have hlm : List.getLastD (j :: rest') 0 ∈ j :: rest' :=
              getLastD_mem_of_ne_nil _ 0 (by simp)
            show ((bp.chunks.set i _).getD (List.getLastD (j :: rest') 0)
              default).next = none
            rw [getD_set_ne bp.chunks i _ _ (Nat.ne_of_lt (hpair _ hlm))]
            exact hl2
        obtain ⟨bp', hw, hav, hbl, hlen⟩ :=
          ih _ fuel hch1 (by simp at hf ⊢; omega)
        refine ⟨bp', hw, ?_, ?_, ?_⟩
        · simp at hav ⊢
          omega
        · simpa using hbl
        · simp [List.length_set] at hlen ⊢
          omega

/-- BP_CopyToMem is fault-free and returns the truncated byte count whenever
the chain really holds S bytes (S ≤ ℓ·single, the shape of every chain built
by BP_GetBuffer or BP_InitStandaloneBuf) and the uint32 additions involved
cannot wrap. -/
theorem bp_copy_to_mem_total (S ℓ single so dlen : Nat) (hs : 0 < single)
    (hcap : S ≤ ℓ * single) (hSw : S + single < U32) (hnov : so + dlen < U32) :
    BP_CopyToMem S ℓ single so dlen =
      some (if ℓ = 0 ∨ dlen = 0 ∨ ¬(so < S) then 0 else min dlen (S - so)) := by
  by_cases hg : ℓ = 0 ∨ dlen = 0 ∨ ¬(so < S)
  · rw [BP_CopyToMem, if_pos hg, if_pos hg]
  · rw [BP_CopyToMem, if_neg hg, if_neg hg]
    push_neg at hg
    obtain ⟨hl0, hd0, hso⟩ := hg
    have hmod : (so + dlen) % U32 = so + dlen := Nat.mod_eq_of_lt hnov
    have hA_le : single * (so / single) ≤ so := by
      calc single * (so / single) = so / single * single := Nat.mul_comm _ _
        _ ≤ so := Nat.div_mul_le_self so single
    have hAs : single * (so / single + 1) = single * (so / single) + single := by
      ring
    have hdm := Nat.div_add_mod so single
    have hmlt : so % single < single := Nat.mod_lt _ hs
    have hso_lt : so < single * (so / single + 1) := by omega
    have hltl : so / single < ℓ := by
      rw [Nat.div_lt_iff_lt_mul hs]
      omega
    have hhop : bp_hop_loop single so (ℓ + 2) single ℓ =
        some (single * (so / single + 1), ℓ - so / single) := by
      have h0 := bp_hop_loop_spec single so ℓ hs (by omega) hltl (ℓ + 2) 0
        (Nat.zero_le _) (by simp only [Nat.sub_zero]; omega)
      simpa using h0
    simp only [hmod]
    rw [hhop]
    simp only []
    rw [if_neg (show ¬(ℓ - so / single = 0) by omega)]
    have hb1 : (single * (so / single + 1) + (U32 - single)) % U32 =
        single * (so / single) := by
      rw [u32_sub _ _ (by omega) (by omega)]
      omega
    rw [hb1]
    have hboff : (so + (U32 - single * (so / single))) % U32 =
        so - single * (so / single) :=
      u32_sub so _ hA_le (by omega)
    rw [hboff]
    have hcsz : (single + (U32 - (so - single * (so / single)))) % U32 =
        single - (so - single * (so / single)) := by
      apply u32_sub
      · omega
      · omega
    rw [hcsz]
    have hsum : ((ℓ - so / single) - 1) * single + single * (so / single + 1) =
        ℓ * single := by
      have h5 : ((ℓ - so / single) - 1) + (so / single + 1) = ℓ := by omega
      calc ((ℓ - so / single) - 1) * single + single * (so / single + 1)
          = ((ℓ - so / single) - 1) * single + (so / single + 1) * single := by
            rw [Nat.mul_comm single]
        _ = (((ℓ - so / single) - 1) + (so / single + 1)) * single :=
            (Nat.add_mul _ _ _).symm
        _ = ℓ * single := by rw [h5]
    have hdl_le : (if S < so + dlen then S - so else dlen) ≤ S - so := by
      by_cases hx : S < so + dlen
      · rw [if_pos hx]
      · rw [if_neg hx]
        omega
    have hloop : bp_copy_loop single ((ℓ - so / single) + 1) (ℓ - so / single)
        ((if S < so + dlen then S - so else dlen) -
          min (single - (so - single * (so / single)))
            (if S < so + dlen then S - so else dlen)) = true := by
      apply bp_copy_loop_true single ((ℓ - so / single) + 1) (ℓ - so / single) _
        (by omega) ?_ (by omega)
      omega
    rw [hloop, if_pos rfl]
    congr 1
    by_cases hx : S < so + dlen
    · rw [if_pos hx]
      omega
    · rw [if_neg hx]
      omega

/-- Counterexample for C9 as frozen: a well-formed one-chunk pool chain
(head size 4, one node, pool chunk length 16) copied from offset 1 with
data_len 4294967295.  The uint32 truncation test (src_offset + data_len) >
size wraps to 0 and lets the huge length through, the copy loop then steps
past the single node and the C memcpy reads src->data through a NULL src —
the function faults instead of returning a count or zero. -/
theorem claim_C9_cex :
    BP_CopyToMem 4 1 16 1 4294967295 = none := by
  decide

/-- C9 amended: every modeled buffer-pool operation is total and fault-free
for argument combinations whose uint32 length arithmetic does not overflow:
BP_Create fails exactly on zero arguments; BP_CopyToMem on a chain holding
its declared bytes returns the (truncated) copied count whenever
src_offset + data_len does not wrap; BP_ReleaseBuffer is a no-op on a null
or standalone buffer and succeeds on every pool chain — every access of its
walk, including the final mutual-exclusion release (a macro ignoring its
argument), goes through non-null pointers — returning each chunk to the
pool; BP_GetBuffer never faults when the ceiling computation does not wrap
and availableCount does not over-report the free chunks. -/
theorem claim_C9_amended :
    (∀ n s, BP_Create n s = none ↔ n = 0 ∨ s = 0) ∧
    (∀ S ℓ single so dlen, 0 < single → S ≤ ℓ * single →
      S + single < U32 → so + dlen < U32 →
      BP_CopyToMem S ℓ single so dlen =
        some (if ℓ = 0 ∨ dlen = 0 ∨ ¬(so < S) then 0
          else min dlen (S - so))) ∧
    (∀ bp, BP_ReleaseBuffer bp none = some bp) ∧
    (∀ bp i, (bp.chunks.getD i default).owned = false →
      BP_ReleaseBuffer bp (some i) = some bp) ∧
    (∀ bp sel, IsPoolChain bp sel →
      ∃ bp', BP_ReleaseBuffer bp (some (sel.headD 0)) = some bp' ∧
        bp'.avail_buffers = bp.avail_buffers + sel.length) ∧
    (∀ bp L, 0 < bp.buf_len → L + bp.buf_len - 1 < U32 →
      bp.avail_buffers ≤ countFree bp.chunks →
      (BP_GetBuffer bp L).isSome = true) := by
  refine ⟨?_, ?_, ?_, ?_, ?_, ?_⟩
  · intro n s
    by_cases h : n = 0 ∨ s = 0
    · rw [BP_Create, if_pos h]
      simp [h]
    · rw [BP_Create, if_neg h]
      simp [h]
  · intro S ℓ single so dlen hs hcap hSw hnov
    exact bp_copy_to_mem_total S ℓ single so dlen hs hcap hSw hnov
  · intro bp
    rfl
  · intro bp i h
    rw [BP_ReleaseBuffer]
    simp only [h]
    rw [if_neg (by simp)]
  · intro bp sel hch
    have hhead : sel.headD 0 ∈ sel := by
      cases sel with
      | nil => exact absurd rfl hch.1
      | cons a l => simp
    have hho : (bp.chunks.getD (sel.headD 0) default).owned = true :=
      (hch.2.2.1 (sel.headD 0) hhead).2
    have hfuel : sel.length ≤ bp.chunks.length + 1 := by
      have := chain_lt_length_le sel bp.chunks.length hch.2.1
        (fun i hi => (hch.2.2.1 i hi).1)
      omega
    obtain ⟨bp', hw, hav, _, _⟩ :=
      bp_release_walk_chain sel bp (bp.chunks.length + 1) hch hfuel
    refine ⟨bp', ?_, hav⟩
    rw [BP_ReleaseBuffer, if_pos hho]
    exact hw
  · intro bp L hC hCL hav
    by_cases hL : L = 0
    · rw [BP_GetBuffer, if_pos hL]
      rfl
    · have hmod : (L + (bp.buf_len - 1)) % U32 = L + (bp.buf_len - 1) :=
        Nat.mod_eq_of_lt (by omega)
      have hD1 : 1 ≤ (L + (bp.buf_len - 1)) / bp.buf_len := by
        rw [Nat.le_div_iff_mul_le hC]
        omega
      rw [BP_GetBuffer, if_neg hL]
      simp only [hmod]
      rw [if_neg (by omega)]
      by_cases h1 : bp.chunks.length < (L + (bp.buf_len - 1)) / bp.buf_len
      · rw [if_pos h1]
        rfl
      · rw [if_neg h1]
        by_cases h2 : bp.avail_buffers < (L + (bp.buf_len - 1)) / bp.buf_len
        · rw [if_pos h2]
          rfl
        · rw [if_neg h2]
          have hscan : (bp_scan 0 ((L + (bp.buf_len - 1)) / bp.buf_len)
              bp.chunks).isSome = true :=
            (bp_scan_isSome _ 0 _).2 (by omega)
          rcases hsc : bp_scan 0 ((L + (bp.buf_len - 1)) / bp.buf_len)
              bp.chunks with _ | sel
          · rw [hsc] at hscan
            simp at hscan
          · rfl

/-- Witness for C9 amended: the BP_CopyToMem conjunct at the one-chunk chain
of the counterexample with a small, non-wrapping length. -/
theorem claim_C9_amended_witness :
    0 < 16 ∧ (4 : Nat) ≤ 1 * 16 ∧ 4 + 16 < U32 ∧ 1 + 3 < U32 ∧
      BP_CopyToMem 4 1 16 1 3 =
        some (if (1 : Nat) = 0 ∨ (3 : Nat) = 0 ∨ ¬((1 : Nat) < 4) then 0
          else min 3 (4 - 1)) :=
  ⟨by decide, by decide, by decide, by decide,
   claim_C9_amended.2.1 4 1 16 1 3 (by decide) (by decide) (by decide)
     (by decide)⟩

end UcHalNV
